import Mathlib

/-!
Verification development for the redundancy-detection engine of the
`flake8_redundant_parentheses` plugin
(`src/flake8_plugins/flake8_redundant_parentheses/parentheses_checker/__init__.py`).

The engine is embedded shallowly:

* `Tok` models the host tokenizer's tokens (kind tag, literal text, start and
  end coordinates, and the text of the physical line the token starts on).
* `findParensCoords` embeds `find_parens_coords` (the Token Bracket Matcher).
  Python failure modes (pop from an empty list, the kind-agreement `assert`,
  the `token[i + 1]` lookahead past the end) are made explicit with `Option`.
* `Py` models Python `ast` nodes: a node has a kind tag, source coordinates,
  and an ordered field list whose entries are single child nodes, child-node
  lists, or rendered atoms (identifiers / constant values).  `dumpAny` models
  `ast.dump`, which serialises kinds, field names and atoms but no source
  coordinates, so two trees have equal dumps iff they agree up to locations.
* `checkTrees` embeds `check_trees` (the Equivalence Tester); the host parser
  `ast.parse` is an external collaborator and is passed in as a parameter of
  type `String → Option Py` (`none` models `ValueError`/`SyntaxError`).
* `checkerState`/`checkerCheck` embed `Checker.check` (the Redundancy
  Classifier) including its breadth-first `ast.walk` traversal, and
  `runPlugin` embeds `Plugin.__init__`/`Plugin.run`.

Python string slicing and list indexing are modelled by `pyTake`, `pyDrop`,
`pyGet` and `pySet`, which realise Python's clamping and negative-index
semantics; the out-of-range list accesses that would raise `IndexError` in
Python (unreachable for coordinates coming from a token stream of the same
source) are mapped to neutral values.
-/

/-- Newline, used to split and rejoin source text exactly as
`source_code.split("\n")` and `"\n".join(lines)` do. -/
def nl : String := "\n"

/-- A single space, the width-preserving replacement for a closing token. -/
def sp : String := " "

/-- The empty replacement string used for an opening token that begins its
line. -/
def emptyRepl : String := ""

/-- Left brace character (written via its code point). -/
def lbrace : String := (Char.ofNat 123).toString

/-- Right brace character (written via its code point). -/
def rbrace : String := (Char.ofNat 125).toString

/-- `open_list = ["[", "{", "("]` from `find_parens_coords`. -/
def openSyms : List String := ["[", lbrace, "("]

/-- `close_list = ["]", "}", ")"]` from `find_parens_coords`. -/
def closeSyms : List String := ["]", rbrace, ")"]

/-- `open_list.index`, defined on the three opening symbols (other strings are
mapped to an out-of-range sentinel; the source only calls it on stack entries,
which always hold one of the three symbols). -/
def openIdx (s : String) : Nat :=
  if s == "[" then 0 else if s == lbrace then 1 else if s == "(" then 2 else 7

/-- `close_list.index`, defined on the three closing symbols. -/
def closeIdx (s : String) : Nat :=
  if s == "]" then 0 else if s == rbrace then 1 else if s == ")" then 2 else 8

/-- The newline character. -/
def nlChar : Char := Char.ofNat 10

/-- Python string slice `s[:i]` with an `int` index: negative indices count
from the end, and indices are clamped to the string's length (realised over
the character list so that every step is structural recursion). -/
def pyTake (s : String) (i : Int) : String :=
  let n : Int := s.data.length
  let j : Int := if i < 0 then i + n else i
  String.mk (s.data.take j.toNat)

/-- Python string slice `s[i:]` with an `int` index: negative indices count
from the end, and indices are clamped to the string's length. -/
def pyDrop (s : String) (i : Int) : String :=
  let n : Int := s.data.length
  let j : Int := if i < 0 then i + n else i
  String.mk (s.data.drop j.toNat)

/-- Helper of `pySplitLines`: split a character list at every newline,
`acc` holding the current line reversed. -/
def splitLinesAux : List Char → List Char → List String
  | [], acc => [String.mk acc.reverse]
  | c :: rest, acc =>
    if c = nlChar then String.mk acc.reverse :: splitLinesAux rest []
    else splitLinesAux rest (c :: acc)

/-- `source_code.split("\n")` — Python's split on the newline separator
(an empty source yields `[""]`, a trailing newline yields a final `""`). -/
def pySplitLines (s : String) : List String := splitLinesAux s.data []

/-- `"\n".join(lines)`. -/
def pyJoinLines : List String → String
  | [] => ""
  | [l] => l
  | l :: rest => l ++ nl ++ pyJoinLines rest

/-- Python list read `l[i]` on a list of lines: a negative index counts from
the end; an index that would raise `IndexError` yields `""` (unreachable for
line numbers taken from a token stream of the same source). -/
def pyGet (l : List String) (i : Int) : String :=
  let j : Int := if i < 0 then i + l.length else i
  if j < 0 then "" else (l.getD j.toNat "")

/-- Python list write `l[i] = x` on a list of lines: a negative index counts
from the end; an index that would raise `IndexError` leaves the list
unchanged (unreachable for line numbers taken from a token stream of the same
source). -/
def pySet (l : List String) (i : Int) (x : String) : List String :=
  let j : Int := if i < 0 then i + l.length else i
  if j < 0 then l else l.set j.toNat x

/-- A token as handed to the plugin by the host tokenizer: kind tag (`54` is
the `OP` kind the source tests for), literal text, 1-based start and end
line with 0-based columns, and the full text of the line the token starts on
(including its trailing newline, as `tokenize` provides it). -/
structure Tok where
  type : Nat
  string : String
  start : Nat × Nat
  endp : Nat × Nat
  line : String
deriving DecidableEq

/-- A stack entry pushed by `find_parens_coords` for an opening token:
`[token[i].start, <erasure column>, <replacement text>, token[i].string]`. -/
structure OpenEntry where
  openPos : Nat × Nat
  space : Int
  repl : String
  sym : String
deriving DecidableEq

/-- A matched pair as returned by `find_parens_coords`:
`[*opening[0:3], token[i].start]`, i.e. the opening token's start, the
erasure column, the replacement text, and the closing token's start. -/
structure ParenPair where
  openPos : Nat × Nat
  space : Int
  repl : String
  closePos : Nat × Nat
deriving DecidableEq

/-- `t.type == 54 and t.string in open_list`: the token is an opening
grouping token. -/
def isOpenTok (t : Tok) : Bool :=
  t.type == 54 && openSyms.contains t.string

/-- `t.type == 54 and t.string in close_list`: the token is a closing
grouping token. -/
def isCloseTok (t : Tok) : Bool :=
  t.type == 54 && closeSyms.contains t.string

/-- The loop body of `find_parens_coords`, processing the token list in
order.  `lastLine` is the `last_line` variable (initially `-1`), `stack` is
`opening_stack` and `pairs` is `parentheses_pairs`.  `none` models the three
ways the Python function can raise: the `token[i + 1]` lookahead running past
the end of the stream, `opening_stack.pop()` on an empty stack, and the
kind-agreement `assert`. -/
def findAux : List Tok → Int → List OpenEntry → List ParenPair →
    Option (List ParenPair)
  | [], _, _, pairs => some pairs
  | t :: rest, lastLine, stack, pairs =>
    let firstInLine := lastLine ≠ (t.start.1 : Int)
    let lastLine' : Int := (t.endp.1 : Int)
    if t.type == 54 then
      if openSyms.contains t.string then
        if !firstInLine then
          findAux rest lastLine'
            (⟨t.start, (t.endp.2 : Int), sp, t.string⟩ :: stack) pairs
        else
          match rest with
          | [] => none
          | t2 :: _ =>
            if t2.start.1 == t.endp.1 then
              findAux rest lastLine'
                (⟨t.start, (t2.start.2 : Int), emptyRepl, t.string⟩ :: stack)
                pairs
            else
              -- there is only this opening parenthesis on this line
              findAux rest lastLine'
                (⟨t.start, (t.line.length : Int) - 2, emptyRepl, t.string⟩ ::
                  stack) pairs
      else if closeSyms.contains t.string then
        match stack with
        | [] => none
        | o :: stack' =>
          if openIdx o.sym == closeIdx t.string then
            findAux rest lastLine' stack'
              (pairs ++ [⟨o.openPos, o.space, o.repl, t.start⟩])
          else none
      else findAux rest lastLine' stack pairs
    else findAux rest lastLine' stack pairs

/-- `find_parens_coords(token)`. -/
def findParensCoords (toks : List Tok) : Option (List ParenPair) :=
  findAux toks (-1) [] []

/-- The line-editing part of `check_trees`: replace the opening erasure span
by the recorded replacement, then (shift-adjusted when opening and closing
tokens share a line) replace the one-character closing token by a space. -/
def eraseLines (lines : List String) (c : ParenPair) : List String :=
  let oi : Int := (c.openPos.1 : Int) - 1
  let ol := pyGet lines oi
  let lines1 := pySet lines oi
    (pyTake ol (c.openPos.2 : Int) ++ c.repl ++ pyDrop ol c.space)
  let shift : Int :=
    if c.openPos.1 == c.closePos.1 then
      -((c.space - (c.openPos.2 : Int)) - (c.repl.length : Int))
    else 0
  let ci : Int := (c.closePos.1 : Int) - 1
  let cl := pyGet lines1 ci
  pySet lines1 ci
    (pyTake cl ((c.closePos.2 : Int) + shift) ++ sp ++
      pyDrop cl ((c.closePos.2 : Int) + 1 + shift))

/-- The modified source `code_without_parens` built by `check_trees`. -/
def eraseParens (src : String) (c : ParenPair) : String :=
  pyJoinLines (eraseLines (pySplitLines src) c)

/-- `check_trees(source_code, start_tree, parens_coords)` for an abstract
host parser `parse` (`none` models the caught `ValueError`/`SyntaxError`) and
structural dump `dump`; `startTree` is the original tree's dump string. -/
def checkTrees {α : Type} (parse : String → Option α) (dump : α → String)
    (src : String) (startTree : String) (c : ParenPair) : Bool :=
  match parse (eraseParens src c) with
  | none => false
  | some t => dump t == startTree

/-- Source coordinates of an `ast` node: `lineno`, `col_offset`,
`end_lineno`, `end_col_offset`. -/
structure Loc where
  lineno : Nat
  colOffset : Nat
  endLineno : Nat
  endColOffset : Nat
deriving DecidableEq

/-- A Python `ast` value.  `node` is an AST node with kind tag, coordinates
and an ordered field list; the field list is itself built from the `f*`
constructors (`fone` a single child node, `fmany` a child-node list built
from `tcons`/`tnil`, `fatom` a non-node field rendered as text, such as an
identifier or a constant value).  The coordinates are optional: CPython
node classes outside the `stmt`/`expr` hierarchies (`Module`,
`comprehension`, `arguments`, `withitem`, operator and context nodes)
carry no `lineno`/`col_offset`/`end_lineno`/`end_col_offset` attributes,
and reading a position of such a node raises `AttributeError` — modelled
here by `none`.  Encoding the field and node lists with binary
constructors of the same type keeps every traversal structurally
recursive. -/
inductive Py where
  | node (kind : String) (loc : Option Loc) (fields : Py)
  | fnil
  | fone (fname : String) (t : Py) (rest : Py)
  | fmany (fname : String) (ts : Py) (rest : Py)
  | fatom (fname : String) (s : String) (rest : Py)
  | tnil
  | tcons (t : Py) (ts : Py)
deriving DecidableEq

/-- Turn an encoded node list into a `List`. -/
def tlist : Py → List Py
  | .tcons t ts => t :: tlist ts
  | _ => []

/-- Build an encoded node list from a `List`. -/
def toT : List Py → Py
  | [] => .tnil
  | t :: ts => .tcons t (toT ts)

/-- The child nodes contributed by a field list, in field order (atoms
contribute none) — the order `ast.iter_child_nodes` yields. -/
def fieldNodes : Py → List Py
  | .fone _ t rest => t :: fieldNodes rest
  | .fmany _ ts rest => tlist ts ++ fieldNodes rest
  | .fatom _ _ rest => fieldNodes rest
  | _ => []

/-- `ast.iter_child_nodes(node)`: all direct child nodes in field order. -/
def children : Py → List Py
  | .node _ _ fs => fieldNodes fs
  | _ => []

/-- The node's kind tag (its `ast` class name). -/
def kindOf : Py → String
  | .node k _ _ => k
  | _ => ""

/-- The node's source coordinates; `none` models a node without position
attributes, whose coordinates the source cannot read without raising
`AttributeError`. -/
def locOf : Py → Option Loc
  | .node _ l _ => l
  | _ => none

/-- `(node.lineno, node.col_offset)`; `none` models the `AttributeError`
raised when the node has no position attributes. -/
def startPosOf (n : Py) : Option (Nat × Nat) :=
  (locOf n).map (fun l => (l.lineno, l.colOffset))

/-- `(node.end_lineno, node.end_col_offset)`; `none` models the
`AttributeError`. -/
def endPosOf (n : Py) : Option (Nat × Nat) :=
  (locOf n).map (fun l => (l.endLineno, l.endColOffset))

/-- `node.end_col_offset` alone; `none` models the `AttributeError`. -/
def endColOf (n : Py) : Option Nat := (locOf n).map Loc.endColOffset

/-- Look a field up by name in a field list and return its child nodes
(a `fone` field yields a singleton, a `fmany` field its list). -/
def getFieldAux (name : String) : Py → List Py
  | .fone f t rest => if f == name then [t] else getFieldAux name rest
  | .fmany f ts rest => if f == name then tlist ts else getFieldAux name rest
  | .fatom _ _ rest => getFieldAux name rest
  | _ => []

/-- Attribute access for a node-list field (`node.targets`, `node.elts`). -/
def getField (name : String) : Py → List Py
  | .node _ _ fs => getFieldAux name fs
  | _ => []

/-- Field name `targets` of `ast.Assign`. -/
def fTargets : String := "targets"

/-- Field name `elts` of `ast.Tuple`. -/
def fElts : String := "elts"

/-- `node.targets`. -/
def targetsOf (n : Py) : List Py := getField fTargets n

/-- `node.elts`. -/
def eltsOf (n : Py) : List Py := getField fElts n

/-- The kind tags of `bin_exc = (ast.BinOp, ast.BoolOp, ast.UnaryOp,
ast.Compare, ast.Await)`. -/
def binExcKinds : List String :=
  ["BinOp", "BoolOp", "UnaryOp", "Compare", "Await"]

/-- `isinstance(node, bin_exc)`. -/
def isBinExc (n : Py) : Bool := binExcKinds.contains (kindOf n)

/-- `isinstance(node, ast.Assign)`. -/
def isAssign (n : Py) : Bool := kindOf n == "Assign"

/-- `isinstance(node, ast.Tuple)`. -/
def isTuple (n : Py) : Bool := kindOf n == "Tuple"

/-- `isinstance(tree, ast.Module)` (the assertion in `Checker.__init__`). -/
def isModule (n : Py) : Bool := kindOf n == "Module"

/-- `", "`, the separator `ast.dump` places between rendered fields. -/
def commaSep : String := ", "

/-- Separator to place after a field if more fields follow. -/
def fsep : Py → String
  | .fnil => ""
  | _ => commaSep

/-- Separator to place after a node-list element if more elements follow. -/
def tsep : Py → String
  | .tnil => ""
  | _ => commaSep

/-- `ast.dump(tree)` (with its default arguments): serialise kind tags,
field names, atoms and list structure, but no source coordinates.  Hence
two model trees have equal dumps exactly when they agree up to
coordinates, which is the property of CPython's `ast.dump` the source
relies on. -/
def dumpAny : Py → String
  | .node k _ fs => k ++ "(" ++ dumpAny fs ++ ")"
  | .fnil => ""
  | .fone f t rest => f ++ "=" ++ dumpAny t ++ fsep rest ++ dumpAny rest
  | .fmany f ts rest =>
    f ++ "=[" ++ dumpAny ts ++ "]" ++ fsep rest ++ dumpAny rest
  | .fatom f s rest => f ++ "=" ++ s ++ fsep rest ++ dumpAny rest
  | .tnil => ""
  | .tcons t ts => dumpAny t ++ tsep ts ++ dumpAny ts

/-- A size measure on encoded values, used to bound the breadth-first
walk. -/
def pySize : Py → Nat
  | .node _ _ fs => 1 + pySize fs
  | .fnil => 1
  | .fone _ t rest => 1 + pySize t + pySize rest
  | .fmany _ ts rest => 1 + pySize ts + pySize rest
  | .fatom _ _ rest => 1 + pySize rest
  | .tnil => 1
  | .tcons t ts => 1 + pySize t + pySize ts

/-- Total size of a queue of nodes. -/
def qSize (q : List Py) : Nat := (q.map pySize).sum

/-- Breadth-first traversal with explicit fuel: pop the front node, yield
it, and push its children at the back — the deque algorithm of
`ast.walk`. -/
def walkAux : Nat → List Py → List Py
  | _, [] => []
  | 0, _ => []
  | fuel + 1, n :: rest => n :: walkAux fuel (rest ++ children n)

/-- `list(ast.walk(tree))` for the queue `q`; `qSize q` fuel always
suffices (`walkBFS_cons` below). -/
def walkBFS (q : List Py) : List Py := walkAux (qSize q) q

/-- A diagnostic `(line, column, message)` as yielded by `Plugin.run`. -/
abbrev Diag : Type := Nat × Nat × String

/-- `msg = "PAR001: Too many parentheses"` from `Checker.check`. -/
def par001msg : String := "PAR001: Too many parentheses"

/-- The `PAR002` message string of `Checker.check`, exactly as the source
spells it (no apostrophe in `Dont`). -/
def par002msg : String := "PAR002: Dont use parentheses for unpacking"

/-- The `PAR002` kind string as the specification spells it, apostrophe
included (written via its code point). -/
def specPar002 : String :=
  "PAR002: Don" ++ (Char.ofNat 39).toString ++
    "t use parentheses for unpacking"

/-- Python lexicographic `<=` on `(line, column)` pairs. -/
def posLe (a b : Nat × Nat) : Bool :=
  Nat.blt a.1 b.1 || (a.1 == b.1 && Nat.ble a.2 b.2)

/-- Python lexicographic `<` on `(line, column)` pairs. -/
def posLt (a b : Nat × Nat) : Bool :=
  Nat.blt a.1 b.1 || (a.1 == b.1 && Nat.blt a.2 b.2)

/-- `Checker._node_in_parens(node, parens_coords)`:
`node_start >= open_ and node_end <= close`; `none` models the
`AttributeError` raised if the node carries no position attributes (never
the case for the `bin_exc` expression nodes the source applies it to on
CPython trees). -/
def nodeInParens (n : Py) (v : ParenPair) : Option Bool :=
  match locOf n with
  | none => none
  | some l =>
    some (posLe v.openPos (l.lineno, l.colOffset) &&
      posLe (l.endLineno, l.endColOffset) v.closePos)

/-- The `for val in self.vals` scan inside the operator-chain branch of
`Checker.check`: stop at the first pair bounding the parent `node` (adding
nothing); otherwise add the first pair that bounds the child and is not yet
excepted, and stop. -/
def binScanVals (node child : Py) (vals exc : List ParenPair) :
    Option (List ParenPair) :=
  match vals with
  | [] => some exc
  | v :: rest =>
    match nodeInParens node v with
    | none => none
    | some bn =>
      if bn then some exc
      else
        match nodeInParens child v with
        | none => none
        | some bc =>
          if bc && !(exc.contains v) then some (exc ++ [v])
          else binScanVals node child rest exc

/-- The `for child in ast.iter_child_nodes(node)` loop of the
operator-chain branch: children that are not `bin_exc` instances are
skipped. -/
def binChildren (node : Py) (cs : List Py) (vals exc : List ParenPair) :
    Option (List ParenPair) :=
  match cs with
  | [] => some exc
  | c :: rest =>
    if isBinExc c then
      match binScanVals node c vals exc with
      | none => none
      | some exc' => binChildren node rest vals exc'
    else binChildren node rest vals exc

/-- The `for val in self.vals` scan of the unpacking branch: add the first
pair whose opening coordinates equal the tuple target's coordinates and
which is not yet excepted. -/
def tupleExcScan (tc : Nat × Nat) (vals exc : List ParenPair) :
    List ParenPair :=
  match vals with
  | [] => exc
  | v :: rest =>
    if v.openPos == tc && !(exc.contains v) then exc ++ [v]
    else tupleExcScan tc rest exc

/-- The `for targ in node.targets` loop of the unpacking branch of
`Checker.check`: for each tuple target, the inner `for elts in targ.elts`
loop examines only the first element (it ends in an unconditional `break`);
when the tuple's coordinates precede that element's coordinates the branch
records the matching pair as an exception and appends one `PAR002`
diagnostic at the assignment's coordinates. -/
def assignTargets (node : Py) (targs : List Py) (vals : List ParenPair)
    (exc : List ParenPair) (probs : List Diag) :
    Option (List ParenPair × List Diag) :=
  match targs with
  | [] => some (exc, probs)
  | t :: rest =>
    if isTuple t then
      match eltsOf t with
      | [] => assignTargets node rest vals exc probs
      | e :: _ =>
        match startPosOf t with
        | none => none
        | some tc =>
          match startPosOf e with
          | none => none
          | some ec =>
            if posLt tc ec then
              match startPosOf node with
              | none => none
              | some nc =>
                assignTargets node rest vals (tupleExcScan tc vals exc)
                  (probs ++ [(nc.1, nc.2, par002msg)])
            else assignTargets node rest vals exc probs
    else assignTargets node rest vals exc probs

/-- The `for val in self.vals` scan of the tail-tuple branch: append the
first pair not yet excepted (whatever its coordinates). -/
def tailAddFirst (vals exc : List ParenPair) : List ParenPair :=
  match vals with
  | [] => exc
  | v :: rest =>
    if !(exc.contains v) then exc ++ [v] else tailAddFirst rest exc

/-- The `for node_tup in ast.iter_child_nodes(node)` loop of the tail-tuple
branch: at the first tuple child, evaluate
`node_tup.end_col_offset - node.end_col_offset == 0` — reading
`node.end_col_offset` of a node without position attributes (e.g. an
`ast.comprehension`) raises `AttributeError`, modelled by `none`; on a
column match, run `tailAddFirst` and stop; tuple children failing the
column test are skipped. -/
def tailScan (node : Py) (cs : List Py) (vals exc : List ParenPair) :
    Option (List ParenPair) :=
  match cs with
  | [] => some exc
  | c :: rest =>
    if isTuple c then
      match endColOf c with
      | none => none
      | some tupCol =>
        match endColOf node with
        | none => none
        | some nodeCol =>
          if tupCol == nodeCol then some (tailAddFirst vals exc)
          else tailScan node rest vals exc
    else tailScan node rest vals exc

/-- The body of `Checker.check`'s walk loop for one node: the operator-chain
branch (on `bin_exc` nodes), then the unpacking branch (on `Assign` nodes),
then the tail-tuple branch (on every node), threading the `exceptions` list
and the `problems` list; `none` models an `AttributeError` escaping the
loop body. -/
def processNode (vals : List ParenPair) (acc : List ParenPair × List Diag)
    (n : Py) : Option (List ParenPair × List Diag) :=
  match (if isBinExc n then binChildren n (children n) vals acc.1
      else some acc.1) with
  | none => none
  | some exc1 =>
    match (if isAssign n then assignTargets n (targetsOf n) vals exc1 acc.2
        else some (exc1, acc.2)) with
    | none => none
    | some ep =>
      match tailScan n (children n) vals ep.1 with
      | none => none
      | some exc3 => some (exc3, ep.2)

/-- `Checker.check`'s `for node in ast.walk(self.tree)` loop over an
already-computed traversal list, threading the `(exceptions, problems)`
state; `none` models an `AttributeError` raised at some node, which aborts
the whole walk. -/
def checkerFold (vals : List ParenPair) :
    List Py → List ParenPair × List Diag →
    Option (List ParenPair × List Diag)
  | [], st => some st
  | n :: rest, st =>
    match processNode vals st n with
    | none => none
    | some st' => checkerFold vals rest st'

/-- The `(exceptions, problems)` state after `Checker.check`'s full
`ast.walk` loop; `none` models the loop raising. -/
def checkerState (vals : List ParenPair) (tree : Py) :
    Option (List ParenPair × List Diag) :=
  checkerFold vals (walkBFS [tree]) ([], [])

/-- `Checker.check()` followed by reading `checker.problems`: the walk
loop's problems, then one `PAR001` diagnostic at the opening coordinates of
every confirmed pair not in the exception list; `none` models the walk
loop raising, in which case no problem is ever surfaced. -/
def checkerCheck (vals : List ParenPair) (tree : Py) : Option (List Diag) :=
  match checkerState vals tree with
  | none => none
  | some st =>
    some (st.2 ++ (vals.filter (fun v => !(st.1.contains v))).map
      (fun v => (v.openPos.1, v.openPos.2, par001msg)))

/-- The `self.vals` computed by `Plugin.__init__`: the matched pairs that
`check_trees` confirms redundant (in matching order); `none` when
`find_parens_coords` raises. -/
def pluginVals {α : Type} (parse : String → Option α) (dump : α → String)
    (toks : List Tok) (src : String) (tree : α) :
    Option (List ParenPair) :=
  (findParensCoords toks).map
    (·.filter (checkTrees parse dump src (dump tree)))

/-- `Plugin.__init__` followed by `list(Plugin.run())`: `none` models an
escaping exception (`find_parens_coords` raising, the `Module` assertion
of `Checker.__init__` failing, or an `AttributeError` inside
`Checker.check`'s walk); with no confirmed pair `run` yields nothing. -/
def runPlugin (parse : String → Option Py) (toks : List Tok) (src : String)
    (tree : Py) : Option (List Diag) :=
  match pluginVals parse dumpAny toks src tree with
  | none => none
  | some vals =>
    if vals.isEmpty then some []
    else if isModule tree then checkerCheck vals tree else none

/-- Kind tag of `ast.Module`. -/
def kModule : String := "Module"

/-- Kind tag of `ast.Assign`. -/
def kAssign : String := "Assign"

/-- Kind tag of `ast.Expr` (expression statement). -/
def kExpr : String := "Expr"

/-- Kind tag of `ast.Name`. -/
def kName : String := "Name"

/-- Kind tag of `ast.Constant`. -/
def kConstant : String := "Constant"

/-- Kind tag of `ast.Tuple`. -/
def kTuple : String := "Tuple"

/-- Kind tag of `ast.Call`. -/
def kCall : String := "Call"

/-- Kind tag of `ast.BinOp`. -/
def kBinOp : String := "BinOp"

/-- Kind tag of `ast.Add`. -/
def kAdd : String := "Add"

/-- Kind tag of `ast.Store`. -/
def kStore : String := "Store"

/-- Kind tag of `ast.Load`. -/
def kLoad : String := "Load"

/-- Field name `id` of `ast.Name`. -/
def fId : String := "id"

/-- Field name `ctx` of expression nodes. -/
def fCtx : String := "ctx"

/-- Field name `value` (of `ast.Assign`, `ast.Expr`, `ast.Constant`). -/
def fValue : String := "value"

/-- Field name `body` of `ast.Module`. -/
def fBody : String := "body"

/-- Field name `type_ignores` of `ast.Module`. -/
def fTypeIgnores : String := "type_ignores"

/-- Field name `func` of `ast.Call`. -/
def fFunc : String := "func"

/-- Field name `args` of `ast.Call`. -/
def fArgs : String := "args"

/-- Field name `keywords` of `ast.Call`. -/
def fKeywords : String := "keywords"

/-- Field name `left` of `ast.BinOp`. -/
def fLeft : String := "left"

/-- Field name `op` of `ast.BinOp`. -/
def fOp : String := "op"

/-- Field name `right` of `ast.BinOp`. -/
def fRight : String := "right"

/-- Coordinate quadruple shorthand. -/
def L4 (a b c d : Nat) : Loc := ⟨a, b, c, d⟩

/-- An operator or context node (`Load()`, `Store()`, `Add()`): no
position attributes, no fields. -/
def ctxNode (k : String) : Py := .node k none .fnil

/-- `Name(id=…, ctx=…)`. -/
def pyName (idv : String) (ctx : Py) (l : Loc) : Py :=
  .node kName (some l) (.fatom fId idv (.fone fCtx ctx .fnil))

/-- `Constant(value=…)`. -/
def pyConst (v : String) (l : Loc) : Py :=
  .node kConstant (some l) (.fatom fValue v .fnil)

/-- `Tuple(elts=[…], ctx=…)`. -/
def pyTuple (es : List Py) (ctx : Py) (l : Loc) : Py :=
  .node kTuple (some l) (.fmany fElts (toT es) (.fone fCtx ctx .fnil))

/-- `Assign(targets=[…], value=…)`. -/
def pyAssign (targs : List Py) (value : Py) (l : Loc) : Py :=
  .node kAssign (some l)
    (.fmany fTargets (toT targs) (.fone fValue value .fnil))

/-- `Call(func=…, args=[], keywords=[])`. -/
def pyCall (func : Py) (l : Loc) : Py :=
  .node kCall (some l)
    (.fone fFunc func (.fmany fArgs .tnil (.fmany fKeywords .tnil .fnil)))

/-- `Module(body=[…], type_ignores=[])` — `ast.Module` carries no position
attributes. -/
def pyModule (body : List Py) : Py :=
  .node kModule none
    (.fmany fBody (toT body) (.fmany fTypeIgnores .tnil .fnil))

/-- `Expr(value=…)`. -/
def pyExpr (value : Py) (l : Loc) : Py :=
  .node kExpr (some l) (.fone fValue value .fnil)

/-- `BinOp(left=…, op=Add(), right=…)`. -/
def pyAdd (lhs rhs : Py) (l : Loc) : Py :=
  .node kBinOp (some l)
    (.fone fLeft lhs (.fone fOp (ctxNode kAdd) (.fone fRight rhs .fnil)))

/-!
### Scenario A: `(a, b) = f()`

A one-line program whose assignment target is a parenthesized tuple of
names.  `srcA`, `toksA` and `treeA` are the source text, the `tokenize`
token stream and the CPython syntax tree of this program; `parseA` models
`ast.parse` on the two modified sources the engine actually builds (the
tuple parentheses erased, and the call parentheses erased).
-/

/-- The source text of scenario A. -/
def srcA : String := "(a, b) = f()\n"

/-- The token stream of scenario A (`NAME` kind 1, `OP` kind 54, `NEWLINE`
kind 4, `ENDMARKER` kind 0, as CPython's `tokenize` numbers them). -/
def toksA : List Tok :=
  [⟨54, "(", (1, 0), (1, 1), srcA⟩,
   ⟨1, "a", (1, 1), (1, 2), srcA⟩,
   ⟨54, ",", (1, 2), (1, 3), srcA⟩,
   ⟨1, "b", (1, 4), (1, 5), srcA⟩,
   ⟨54, ")", (1, 5), (1, 6), srcA⟩,
   ⟨54, "=", (1, 7), (1, 8), srcA⟩,
   ⟨1, "f", (1, 9), (1, 10), srcA⟩,
   ⟨54, "(", (1, 10), (1, 11), srcA⟩,
   ⟨54, ")", (1, 11), (1, 12), srcA⟩,
   ⟨4, nl, (1, 12), (1, 13), srcA⟩,
   ⟨0, "", (2, 0), (2, 0), ""⟩]

/-- The pair of tuple parentheses of scenario A, as the Bracket Matcher
records it. -/
def pairA1 : ParenPair := ⟨(1, 0), 1, emptyRepl, (1, 5)⟩

/-- The pair of call parentheses of scenario A. -/
def pairA2 : ParenPair := ⟨(1, 10), 11, sp, (1, 11)⟩

/-- The parenthesized tuple target `(a, b)` of scenario A (its span
includes the parentheses: columns 0 to 6). -/
def tupleA : Py :=
  pyTuple
    [pyName "a" (ctxNode kStore) (L4 1 1 1 2),
     pyName "b" (ctxNode kStore) (L4 1 4 1 5)]
    (ctxNode kStore) (L4 1 0 1 6)

/-- The `Assign` node of scenario A. -/
def assignA : Py :=
  pyAssign [tupleA]
    (pyCall (pyName "f" (ctxNode kLoad) (L4 1 9 1 10)) (L4 1 9 1 12))
    (L4 1 0 1 12)

/-- The syntax tree of scenario A:
`Module(body=[Assign(targets=[Tuple([a, b], Store)], value=Call(f))])`. -/
def treeA : Py := pyModule [assignA]

/-- Scenario A with the tuple parentheses erased: `a, b  = f()`. -/
def erasedA1 : String := "a, b  = f()\n"

/-- CPython's tree for `erasedA1`: the same program up to coordinates, so
its dump equals `treeA`'s. -/
def treeA1 : Py :=
  pyModule
    [pyAssign
      [pyTuple
        [pyName "a" (ctxNode kStore) (L4 1 0 1 1),
         pyName "b" (ctxNode kStore) (L4 1 3 1 4)]
        (ctxNode kStore) (L4 1 0 1 4)]
      (pyCall (pyName "f" (ctxNode kLoad) (L4 1 8 1 9)) (L4 1 8 1 11))
      (L4 1 0 1 11)]

/-- Scenario A with the call parentheses erased: `(a, b) = f` followed by
two spaces. -/
def erasedA2 : String := "(a, b) = f  \n"

/-- CPython's tree for `erasedA2`: the value is now the bare `Name` `f`, so
its dump differs from `treeA`'s. -/
def treeA2 : Py :=
  pyModule
    [pyAssign
      [pyTuple
        [pyName "a" (ctxNode kStore) (L4 1 1 1 2),
         pyName "b" (ctxNode kStore) (L4 1 4 1 5)]
        (ctxNode kStore) (L4 1 0 1 6)]
      (pyName "f" (ctxNode kLoad) (L4 1 9 1 10))
      (L4 1 0 1 10)]

/-- Models CPython's `ast.parse` on the modified sources reachable in
scenario A (hand-derived; both modified sources are valid Python). -/
def parseA (s : String) : Option Py :=
  if s == erasedA1 then some treeA1
  else if s == erasedA2 then some treeA2
  else none

/-!
### Scenario B: `(a,` `\n` ` b) = f()`

The same unpacking assignment as scenario A, but with the parenthesized
tuple target split over two lines.  Erasing the tuple parentheses now
leaves an implicit continuation without brackets, which does not parse, so
no pair is confirmed redundant.
-/

/-- The source text of scenario B. -/
def srcB : String := "(a,\n b) = f()\n"

/-- First physical line of scenario B with its newline. -/
def lineB1 : String := "(a,\n"

/-- Second physical line of scenario B with its newline. -/
def lineB2 : String := " b) = f()\n"

/-- The token stream of scenario B (kind 62 is `tokenize.NL`, the
non-logical newline emitted inside brackets). -/
def toksB : List Tok :=
  [⟨54, "(", (1, 0), (1, 1), lineB1⟩,
   ⟨1, "a", (1, 1), (1, 2), lineB1⟩,
   ⟨54, ",", (1, 2), (1, 3), lineB1⟩,
   ⟨62, nl, (1, 3), (1, 4), lineB1⟩,
   ⟨1, "b", (2, 1), (2, 2), lineB2⟩,
   ⟨54, ")", (2, 2), (2, 3), lineB2⟩,
   ⟨54, "=", (2, 4), (2, 5), lineB2⟩,
   ⟨1, "f", (2, 6), (2, 7), lineB2⟩,
   ⟨54, "(", (2, 7), (2, 8), lineB2⟩,
   ⟨54, ")", (2, 8), (2, 9), lineB2⟩,
   ⟨4, nl, (2, 9), (2, 10), lineB2⟩,
   ⟨0, "", (3, 0), (3, 0), ""⟩]

/-- The pair of tuple parentheses of scenario B. -/
def pairB1 : ParenPair := ⟨(1, 0), 1, emptyRepl, (2, 2)⟩

/-- The pair of call parentheses of scenario B. -/
def pairB2 : ParenPair := ⟨(2, 7), 8, sp, (2, 8)⟩

/-- The `Assign` node of scenario B. -/
def assignB : Py :=
  pyAssign
    [pyTuple
      [pyName "a" (ctxNode kStore) (L4 1 1 1 2),
       pyName "b" (ctxNode kStore) (L4 2 1 2 2)]
      (ctxNode kStore) (L4 1 0 2 3)]
    (pyCall (pyName "f" (ctxNode kLoad) (L4 2 6 2 7)) (L4 2 6 2 9))
    (L4 1 0 2 9)

/-- The tuple target of `assignB`. -/
def tupleB : Py :=
  pyTuple
    [pyName "a" (ctxNode kStore) (L4 1 1 1 2),
     pyName "b" (ctxNode kStore) (L4 2 1 2 2)]
    (ctxNode kStore) (L4 1 0 2 3)

/-- The syntax tree of scenario B. -/
def treeB : Py := pyModule [assignB]

/-- Scenario B with the tuple parentheses erased — a continuation across a
line break with no enclosing bracket, which CPython rejects. -/
def erasedB1 : String := "a,\n b  = f()\n"

/-- Scenario B with the call parentheses erased: the value becomes the bare
`Name` `f`, so the dump differs from `treeB`'s. -/
def erasedB2 : String := "(a,\n b) = f  \n"

/-- CPython's tree for `erasedB2`. -/
def treeB2 : Py :=
  pyModule
    [pyAssign
      [pyTuple
        [pyName "a" (ctxNode kStore) (L4 1 1 1 2),
         pyName "b" (ctxNode kStore) (L4 2 1 2 2)]
        (ctxNode kStore) (L4 1 0 2 3)]
      (pyName "f" (ctxNode kLoad) (L4 2 6 2 7))
      (L4 1 0 2 7)]

/-- Models CPython's `ast.parse` on the modified sources reachable in
scenario B: erasing the tuple parentheses yields a `SyntaxError`
(`IndentationError`), erasing the call parentheses parses. -/
def parseB (s : String) : Option Py :=
  if s == erasedB1 then none
  else if s == erasedB2 then some treeB2
  else none

/-!
### Scenario D: `x = (1)` / `y = (a, b)`

Both pairs are structurally redundant.  The value `(a, b)` of the second
assignment is a trailing tuple whose `end_col_offset` equals its parent
assignment's, so the tail-tuple branch fires.
-/

/-- The source text of scenario D. -/
def srcD : String := "x = (1)\ny = (a, b)\n"

/-- First physical line of scenario D with its newline. -/
def lineD1 : String := "x = (1)\n"

/-- Second physical line of scenario D with its newline. -/
def lineD2 : String := "y = (a, b)\n"

/-- The token stream of scenario D (kind 2 is `NUMBER`). -/
def toksD : List Tok :=
  [⟨1, "x", (1, 0), (1, 1), lineD1⟩,
   ⟨54, "=", (1, 2), (1, 3), lineD1⟩,
   ⟨54, "(", (1, 4), (1, 5), lineD1⟩,
   ⟨2, "1", (1, 5), (1, 6), lineD1⟩,
   ⟨54, ")", (1, 6), (1, 7), lineD1⟩,
   ⟨4, nl, (1, 7), (1, 8), lineD1⟩,
   ⟨1, "y", (2, 0), (2, 1), lineD2⟩,
   ⟨54, "=", (2, 2), (2, 3), lineD2⟩,
   ⟨54, "(", (2, 4), (2, 5), lineD2⟩,
   ⟨1, "a", (2, 5), (2, 6), lineD2⟩,
   ⟨54, ",", (2, 6), (2, 7), lineD2⟩,
   ⟨1, "b", (2, 8), (2, 9), lineD2⟩,
   ⟨54, ")", (2, 9), (2, 10), lineD2⟩,
   ⟨4, nl, (2, 10), (2, 11), lineD2⟩,
   ⟨0, "", (3, 0), (3, 0), ""⟩]

/-- The pair around `1` on line 1 of scenario D. -/
def pairD1 : ParenPair := ⟨(1, 4), 5, sp, (1, 6)⟩

/-- The pair around the trailing tuple `(a, b)` on line 2 of scenario D. -/
def pairD2 : ParenPair := ⟨(2, 4), 5, sp, (2, 9)⟩

/-- The confirmed-redundant pairs of scenario D, in matching order. -/
def valsD : List ParenPair := [pairD1, pairD2]

/-- The trailing tuple value `(a, b)` of scenario D's second assignment
(its span includes the parentheses, so its `end_col_offset` is 10, the same
as the assignment's). -/
def tupleD : Py :=
  pyTuple
    [pyName "a" (ctxNode kLoad) (L4 2 5 2 6),
     pyName "b" (ctxNode kLoad) (L4 2 8 2 9)]
    (ctxNode kLoad) (L4 2 4 2 10)

/-- The syntax tree of scenario D. -/
def treeD : Py :=
  pyModule
    [pyAssign [pyName "x" (ctxNode kStore) (L4 1 0 1 1)]
      (pyConst "1" (L4 1 5 1 6)) (L4 1 0 1 7),
     pyAssign [pyName "y" (ctxNode kStore) (L4 2 0 2 1)]
      tupleD (L4 2 0 2 10)]

/-- Scenario D with the pair around `1` erased. -/
def erasedD1 : String := "x =  1 \ny = (a, b)\n"

/-- CPython's tree for `erasedD1`: same program up to coordinates. -/
def treeD1 : Py :=
  pyModule
    [pyAssign [pyName "x" (ctxNode kStore) (L4 1 0 1 1)]
      (pyConst "1" (L4 1 5 1 6)) (L4 1 0 1 6),
     pyAssign [pyName "y" (ctxNode kStore) (L4 2 0 2 1)]
      tupleD (L4 2 0 2 10)]

/-- Scenario D with the pair around `(a, b)` erased. -/
def erasedD2 : String := "x = (1)\ny =  a, b \n"

/-- CPython's tree for `erasedD2`: the tuple no longer includes
parentheses in its span, but the dump ignores coordinates, so it equals
`treeD`'s. -/
def treeD2 : Py :=
  pyModule
    [pyAssign [pyName "x" (ctxNode kStore) (L4 1 0 1 1)]
      (pyConst "1" (L4 1 5 1 6)) (L4 1 0 1 7),
     pyAssign [pyName "y" (ctxNode kStore) (L4 2 0 2 1)]
      (pyTuple
        [pyName "a" (ctxNode kLoad) (L4 2 5 2 6),
         pyName "b" (ctxNode kLoad) (L4 2 8 2 9)]
        (ctxNode kLoad) (L4 2 5 2 9))
      (L4 2 0 2 9)]

/-- Models CPython's `ast.parse` on the modified sources reachable in
scenario D (both parse, and both dumps equal the original's). -/
def parseD (s : String) : Option Py :=
  if s == erasedD1 then some treeD1
  else if s == erasedD2 then some treeD2
  else none

/-!
### Scenario E: `((a + b) + c)`

A doubly parenthesized operator chain.  Both pairs are structurally
redundant; the inner pair bounds the inner `BinOp`, which is a `bin_exc`
child of the outer `BinOp`, so the operator-chain branch excepts it.
-/

/-- The source text of scenario E. -/
def srcE : String := "((a + b) + c)\n"

/-- The single physical line of scenario E with its newline. -/
def lineE : String := "((a + b) + c)\n"

/-- The token stream of scenario E. -/
def toksE : List Tok :=
  [⟨54, "(", (1, 0), (1, 1), lineE⟩,
   ⟨54, "(", (1, 1), (1, 2), lineE⟩,
   ⟨1, "a", (1, 2), (1, 3), lineE⟩,
   ⟨54, "+", (1, 4), (1, 5), lineE⟩,
   ⟨1, "b", (1, 6), (1, 7), lineE⟩,
   ⟨54, ")", (1, 7), (1, 8), lineE⟩,
   ⟨54, "+", (1, 9), (1, 10), lineE⟩,
   ⟨1, "c", (1, 11), (1, 12), lineE⟩,
   ⟨54, ")", (1, 12), (1, 13), lineE⟩,
   ⟨4, nl, (1, 13), (1, 14), lineE⟩,
   ⟨0, "", (2, 0), (2, 0), ""⟩]

/-- The inner pair of scenario E, around `a + b`. -/
def pairEin : ParenPair := ⟨(1, 1), 2, sp, (1, 7)⟩

/-- The outer pair of scenario E, around `(a + b) + c`. -/
def pairEout : ParenPair := ⟨(1, 0), 1, emptyRepl, (1, 12)⟩

/-- The confirmed-redundant pairs of scenario E, in matching order (the
inner pair closes first). -/
def valsE : List ParenPair := [pairEin, pairEout]

/-- The inner `BinOp` `a + b` of scenario E (parentheses are not part of a
`BinOp`'s span). -/
def binInnerE : Py :=
  pyAdd (pyName "a" (ctxNode kLoad) (L4 1 2 1 3))
    (pyName "b" (ctxNode kLoad) (L4 1 6 1 7)) (L4 1 2 1 7)

/-- The outer `BinOp` `(a + b) + c` of scenario E. -/
def binOuterE : Py :=
  pyAdd binInnerE (pyName "c" (ctxNode kLoad) (L4 1 11 1 12)) (L4 1 1 1 12)

/-- The syntax tree of scenario E. -/
def treeE : Py := pyModule [pyExpr binOuterE (L4 1 0 1 13)]

/-- Scenario E with the inner pair erased. -/
def erasedEin : String := "( a + b  + c)\n"

/-- CPython's tree for `erasedEin`: `+` is left-associative, so the shape
is unchanged and the dump equals `treeE`'s. -/
def treeEin : Py :=
  pyModule
    [pyExpr
      (pyAdd
        (pyAdd (pyName "a" (ctxNode kLoad) (L4 1 2 1 3))
          (pyName "b" (ctxNode kLoad) (L4 1 6 1 7)) (L4 1 2 1 7))
        (pyName "c" (ctxNode kLoad) (L4 1 11 1 12)) (L4 1 2 1 12))
      (L4 1 0 1 13)]

/-- Scenario E with the outer pair erased. -/
def erasedEout : String := "(a + b) + c \n"

/-- CPython's tree for `erasedEout`: same shape, dump equals `treeE`'s. -/
def treeEout : Py :=
  pyModule
    [pyExpr
      (pyAdd
        (pyAdd (pyName "a" (ctxNode kLoad) (L4 1 1 1 2))
          (pyName "b" (ctxNode kLoad) (L4 1 5 1 6)) (L4 1 1 1 6))
        (pyName "c" (ctxNode kLoad) (L4 1 10 1 11)) (L4 1 0 1 11))
      (L4 1 0 1 11)]

/-- Models CPython's `ast.parse` on the modified sources reachable in
scenario E. -/
def parseE (s : String) : Option Py :=
  if s == erasedEin then some treeEin
  else if s == erasedEout then some treeEout
  else none

/-!
### Scenario G: a lone opening bracket on its own line

A host token stream in which an opening parenthesis is the only token on
its line (the specification's §6 interface promises only kind, text and
coordinates per token, so a stream without separate newline tokens is a
legitimate input).  The Bracket Matcher's third layout case fires: the
recorded erasure column is `len(token.line) - 2`.
-/

/-- The source text of scenario G. -/
def srcG : String := "(\n1\n)\n"

/-- The lone opening parenthesis token of scenario G (its physical line is
`"(\n"`, of length 2). -/
def tokG1 : Tok := ⟨54, "(", (1, 0), (1, 1), "(\n"⟩

/-- The number token of scenario G, on the next line. -/
def tokG2 : Tok := ⟨2, "1", (2, 0), (2, 1), "1\n"⟩

/-- The closing parenthesis token of scenario G. -/
def tokG3 : Tok := ⟨54, ")", (3, 0), (3, 1), ")\n"⟩

/-- The token stream of scenario G: the opening parenthesis is the only
token on line 1, and the next token starts on line 2. -/
def toksG : List Tok := [tokG1, tokG2, tokG3]

/-- The first split line of scenario G: just the opening parenthesis. -/
def glParen : String := "("

/-- The split lines of scenario G's source. -/
def linesG : List String := [glParen, "1", ")", ""]

/-- The pair scenario G's Bracket Matcher records: the erasure column is
`len("(\n") - 2 = 0`, the opening token's own column. -/
def pairG : ParenPair := ⟨(1, 0), 0, emptyRepl, (3, 0)⟩

/-- A balanced token stream: processing the grouping tokens (kind 54,
bracket text) against a stack, every closing token finds a kind-matching
opening token, and the stack ends empty — the lexical well-formedness the
host guarantees for any source whose upstream parse succeeded. -/
def balCheck : List Tok → List String → Bool
  | [], stack => stack.isEmpty
  | t :: rest, stack =>
    if t.type == 54 then
      if openSyms.contains t.string then balCheck rest (t.string :: stack)
      else if closeSyms.contains t.string then
        match stack with
        | [] => false
        | s :: stack' =>
          openIdx s == closeIdx t.string && balCheck rest stack'
      else balCheck rest stack
    else balCheck rest stack

/-- Provenance of a matched pair: it was already accumulated, or its
opening coordinates come from the pending stack or from an opening
grouping token of the stream, and its closing coordinates from a closing
grouping token of the stream. -/
def pairFromToks (toks : List Tok) (stack : List OpenEntry)
    (pairs : List ParenPair) (p : ParenPair) : Prop :=
  p ∈ pairs ∨
    (((∃ e ∈ stack, e.openPos = p.openPos) ∨
        ∃ t ∈ toks, isOpenTok t = true ∧ t.start = p.openPos) ∧
      ∃ t ∈ toks, isCloseTok t = true ∧ t.start = p.closePos)

/-- The condition under which the unpacking branch fires for one target:
the target is a tuple, and its coordinates strictly precede its first
element's (i.e. the tuple is written with enclosing parentheses, whose
column the tuple span includes). -/
def qualifiesTarget (t : Py) : Bool :=
  isTuple t &&
    (match eltsOf t with
     | [] => false
     | e :: _ =>
       match startPosOf t, startPosOf e with
       | some tc, some ec => posLt tc ec
       | _, _ => false)

/-- The `PAR002` diagnostic the unpacking branch appends for the assignment
node `n` (the fallback coordinates are never used on a path where the
branch actually appends, since appending required reading the node's
position successfully). -/
def par002diag (n : Py) : Diag :=
  match startPosOf n with
  | some p => (p.1, p.2, par002msg)
  | none => (0, 0, par002msg)

/-- How many `PAR002` diagnostics the walk loop appends at node `n`: one
per qualifying tuple target of an `Assign` node, none otherwise. -/
def qcount (n : Py) : Nat :=
  if isAssign n then (targetsOf n).countP qualifiesTarget else 0

/-- The number of `PAR002` diagnostics in a diagnostic list. -/
def countPar002 (l : List Diag) : Nat :=
  (l.filter fun d => d.2.2 == par002msg).length

/-- The total number of qualifying parenthesized tuple targets over the
whole tree walk. -/
def totalQual (tree : Py) : Nat := ((walkBFS [tree]).map qcount).sum

/-- The single line of scenario S, whose string literal contains an opening
parenthesis: `x = ["("]`. -/
def lineS : String := "x = [" ++ (Char.ofNat 34).toString ++ "(" ++
  (Char.ofNat 34).toString ++ "]\n"

/-- A quoted `"("` as a `STRING` token's text. -/
def strTokText : String := (Char.ofNat 34).toString ++ "(" ++
  (Char.ofNat 34).toString

/-- Token stream of scenario S (`STRING` kind 3): the only bracket pair is
the square-bracket pair; the parenthesis inside the string literal is the
text of a kind-3 token and produces nothing. -/
def toksS : List Tok :=
  [⟨1, "x", (1, 0), (1, 1), lineS⟩,
   ⟨54, "=", (1, 2), (1, 3), lineS⟩,
   ⟨54, "[", (1, 4), (1, 5), lineS⟩,
   ⟨3, strTokText, (1, 5), (1, 8), lineS⟩,
   ⟨54, "]", (1, 8), (1, 9), lineS⟩,
   ⟨4, nl, (1, 9), (1, 10), lineS⟩,
   ⟨0, "", (2, 0), (2, 0), ""⟩]

/-- The one pair of scenario S. -/
def pairS : ParenPair := ⟨(1, 4), 5, sp, (1, 8)⟩

/-- Kind tag of `ast.ListComp`. -/
def kListComp : String := "ListComp"

/-- Kind tag of `ast.comprehension` — a node class outside the
`stmt`/`expr` hierarchies, which carries no position attributes. -/
def kComprehension : String := "comprehension"

/-- Field name `elt` of `ast.ListComp`. -/
def fElt : String := "elt"

/-- Field name `generators` of `ast.ListComp`. -/
def fGenerators : String := "generators"

/-- Field name `target` of `ast.comprehension`. -/
def fTarget : String := "target"

/-- Field name `iter` of `ast.comprehension`. -/
def fIter : String := "iter"

/-- Field name `ifs` of `ast.comprehension`. -/
def fIfs : String := "ifs"

/-- Field name `is_async` of `ast.comprehension` (an `int`, not a child
node). -/
def fIsAsync : String := "is_async"

/-- `ListComp(elt=…, generators=[…])`. -/
def pyListComp (elt : Py) (gens : List Py) (l : Loc) : Py :=
  .node kListComp (some l)
    (.fone fElt elt (.fmany fGenerators (toT gens) .fnil))

/-- `comprehension(target=…, iter=…, ifs=[], is_async=0)`: no position
attributes, so any coordinate read on it raises `AttributeError`. -/
def pyComprehension (tgt iterExpr : Py) : Py :=
  .node kComprehension none
    (.fone fTarget tgt (.fone fIter iterExpr
      (.fmany fIfs .tnil (.fatom fIsAsync "0" .fnil))))

/-!
### Scenario H: `y = (1)` / `x = [i for i in (a, b)]`

A syntactically valid program on which the engine crashes: the pair around
`1` is confirmed redundant, so the Checker runs; its walk reaches the
`ast.comprehension` node, whose `iter` child is the tuple `(a, b)`, and
the tail-tuple branch's read of `node.end_col_offset` raises
`AttributeError` (`ast.comprehension` has no position attributes).
-/

/-- The source text of scenario H. -/
def srcH : String := "y = (1)\nx = [i for i in (a, b)]\n"

/-- First physical line of scenario H with its newline. -/
def lineH1 : String := "y = (1)\n"

/-- Second physical line of scenario H with its newline. -/
def lineH2 : String := "x = [i for i in (a, b)]\n"

/-- The token stream of scenario H (keywords `for`/`in` are `NAME` tokens,
kind 1, to `tokenize`). -/
def toksH : List Tok :=
  [⟨1, "y", (1, 0), (1, 1), lineH1⟩,
   ⟨54, "=", (1, 2), (1, 3), lineH1⟩,
   ⟨54, "(", (1, 4), (1, 5), lineH1⟩,
   ⟨2, "1", (1, 5), (1, 6), lineH1⟩,
   ⟨54, ")", (1, 6), (1, 7), lineH1⟩,
   ⟨4, nl, (1, 7), (1, 8), lineH1⟩,
   ⟨1, "x", (2, 0), (2, 1), lineH2⟩,
   ⟨54, "=", (2, 2), (2, 3), lineH2⟩,
   ⟨54, "[", (2, 4), (2, 5), lineH2⟩,
   ⟨1, "i", (2, 5), (2, 6), lineH2⟩,
   ⟨1, "for", (2, 7), (2, 10), lineH2⟩,
   ⟨1, "i", (2, 11), (2, 12), lineH2⟩,
   ⟨1, "in", (2, 13), (2, 15), lineH2⟩,
   ⟨54, "(", (2, 16), (2, 17), lineH2⟩,
   ⟨1, "a", (2, 17), (2, 18), lineH2⟩,
   ⟨54, ",", (2, 18), (2, 19), lineH2⟩,
   ⟨1, "b", (2, 20), (2, 21), lineH2⟩,
   ⟨54, ")", (2, 21), (2, 22), lineH2⟩,
   ⟨54, "]", (2, 22), (2, 23), lineH2⟩,
   ⟨4, nl, (2, 23), (2, 24), lineH2⟩,
   ⟨0, "", (3, 0), (3, 0), ""⟩]

/-- The pair around `1` on line 1 of scenario H. -/
def pairH1 : ParenPair := ⟨(1, 4), 5, sp, (1, 6)⟩

/-- The pair around the tuple `(a, b)` inside the comprehension. -/
def pairH2 : ParenPair := ⟨(2, 16), 17, sp, (2, 21)⟩

/-- The square-bracket pair of the list comprehension. -/
def pairH3 : ParenPair := ⟨(2, 4), 5, sp, (2, 22)⟩

/-- The tuple `(a, b)` iterated by scenario H's comprehension (its span
includes the parentheses). -/
def tupleHab : Py :=
  pyTuple
    [pyName "a" (ctxNode kLoad) (L4 2 17 2 18),
     pyName "b" (ctxNode kLoad) (L4 2 20 2 21)]
    (ctxNode kLoad) (L4 2 16 2 22)

/-- The `ast.comprehension` node of scenario H — no position attributes,
and its `iter` child is a tuple. -/
def compH : Py :=
  pyComprehension (pyName "i" (ctxNode kStore) (L4 2 11 2 12)) tupleHab

/-- The `ListComp` value of scenario H's second assignment. -/
def listCompH : Py :=
  pyListComp (pyName "i" (ctxNode kLoad) (L4 2 5 2 6)) [compH]
    (L4 2 4 2 23)

/-- The syntax tree of scenario H. -/
def treeH : Py :=
  pyModule
    [pyAssign [pyName "y" (ctxNode kStore) (L4 1 0 1 1)]
      (pyConst "1" (L4 1 5 1 6)) (L4 1 0 1 7),
     pyAssign [pyName "x" (ctxNode kStore) (L4 2 0 2 1)] listCompH
      (L4 2 0 2 23)]

/-- Scenario H with the pair around `1` erased. -/
def erasedH1 : String := "y =  1 \nx = [i for i in (a, b)]\n"

/-- CPython's tree for `erasedH1`: same program up to coordinates. -/
def treeH1 : Py :=
  pyModule
    [pyAssign [pyName "y" (ctxNode kStore) (L4 1 0 1 1)]
      (pyConst "1" (L4 1 5 1 6)) (L4 1 0 1 6),
     pyAssign [pyName "x" (ctxNode kStore) (L4 2 0 2 1)] listCompH
      (L4 2 0 2 23)]

/-- Scenario H with the tuple parentheses erased: `[i for i in  a, b ]`, a
comprehension over an unparenthesized tuple, which CPython rejects. -/
def erasedH2 : String := "y = (1)\nx = [i for i in  a, b ]\n"

/-- Scenario H with the square brackets erased: `x =  i for i in (a, b) `,
which CPython rejects. -/
def erasedH3 : String := "y = (1)\nx =  i for i in (a, b) \n"

/-- Models CPython's `ast.parse` on the modified sources reachable in
scenario H: only the erasure of the pair around `1` parses (with the
original dump); `erasedH2` and `erasedH3` raise `SyntaxError`. -/
def parseH (s : String) : Option Py :=
  if s == erasedH1 then some treeH1 else none

/-!
### Scenario I: `(a, b) = f()` / `x = [i for i in (c, d)]`

The unpacking assignment of scenario A followed by a list comprehension
over a parenthesized tuple.  The tuple-target pair is confirmed redundant
and the unpacking branch fires for the first assignment, but the walk then
crashes at the `ast.comprehension` node, so the engine emits nothing.
-/

/-- The source text of scenario I. -/
def srcI : String := "(a, b) = f()\nx = [i for i in (c, d)]\n"

/-- First physical line of scenario I with its newline. -/
def lineI1 : String := "(a, b) = f()\n"

/-- Second physical line of scenario I with its newline. -/
def lineI2 : String := "x = [i for i in (c, d)]\n"

/-- The token stream of scenario I. -/
def toksI : List Tok :=
  [⟨54, "(", (1, 0), (1, 1), lineI1⟩,
   ⟨1, "a", (1, 1), (1, 2), lineI1⟩,
   ⟨54, ",", (1, 2), (1, 3), lineI1⟩,
   ⟨1, "b", (1, 4), (1, 5), lineI1⟩,
   ⟨54, ")", (1, 5), (1, 6), lineI1⟩,
   ⟨54, "=", (1, 7), (1, 8), lineI1⟩,
   ⟨1, "f", (1, 9), (1, 10), lineI1⟩,
   ⟨54, "(", (1, 10), (1, 11), lineI1⟩,
   ⟨54, ")", (1, 11), (1, 12), lineI1⟩,
   ⟨4, nl, (1, 12), (1, 13), lineI1⟩,
   ⟨1, "x", (2, 0), (2, 1), lineI2⟩,
   ⟨54, "=", (2, 2), (2, 3), lineI2⟩,
   ⟨54, "[", (2, 4), (2, 5), lineI2⟩,
   ⟨1, "i", (2, 5), (2, 6), lineI2⟩,
   ⟨1, "for", (2, 7), (2, 10), lineI2⟩,
   ⟨1, "i", (2, 11), (2, 12), lineI2⟩,
   ⟨1, "in", (2, 13), (2, 15), lineI2⟩,
   ⟨54, "(", (2, 16), (2, 17), lineI2⟩,
   ⟨1, "c", (2, 17), (2, 18), lineI2⟩,
   ⟨54, ",", (2, 18), (2, 19), lineI2⟩,
   ⟨1, "d", (2, 20), (2, 21), lineI2⟩,
   ⟨54, ")", (2, 21), (2, 22), lineI2⟩,
   ⟨54, "]", (2, 22), (2, 23), lineI2⟩,
   ⟨4, nl, (2, 23), (2, 24), lineI2⟩,
   ⟨0, "", (3, 0), (3, 0), ""⟩]

/-- The tuple-target pair of scenario I. -/
def pairI1 : ParenPair := ⟨(1, 0), 1, emptyRepl, (1, 5)⟩

/-- The call pair of scenario I. -/
def pairI2 : ParenPair := ⟨(1, 10), 11, sp, (1, 11)⟩

/-- The pair around `(c, d)` of scenario I. -/
def pairI3 : ParenPair := ⟨(2, 16), 17, sp, (2, 21)⟩

/-- The square-bracket pair of scenario I. -/
def pairI4 : ParenPair := ⟨(2, 4), 5, sp, (2, 22)⟩

/-- The parenthesized tuple target of scenario I's first assignment. -/
def tupleI : Py :=
  pyTuple
    [pyName "a" (ctxNode kStore) (L4 1 1 1 2),
     pyName "b" (ctxNode kStore) (L4 1 4 1 5)]
    (ctxNode kStore) (L4 1 0 1 6)

/-- The first assignment `(a, b) = f()` of scenario I. -/
def assignI1 : Py :=
  pyAssign [tupleI]
    (pyCall (pyName "f" (ctxNode kLoad) (L4 1 9 1 10)) (L4 1 9 1 12))
    (L4 1 0 1 12)

/-- The tuple `(c, d)` iterated by scenario I's comprehension. -/
def tupleIcd : Py :=
  pyTuple
    [pyName "c" (ctxNode kLoad) (L4 2 17 2 18),
     pyName "d" (ctxNode kLoad) (L4 2 20 2 21)]
    (ctxNode kLoad) (L4 2 16 2 22)

/-- The `ast.comprehension` node of scenario I. -/
def compI : Py :=
  pyComprehension (pyName "i" (ctxNode kStore) (L4 2 11 2 12)) tupleIcd

/-- The `ListComp` value of scenario I's second assignment. -/
def listCompI : Py :=
  pyListComp (pyName "i" (ctxNode kLoad) (L4 2 5 2 6)) [compI]
    (L4 2 4 2 23)

/-- The syntax tree of scenario I. -/
def treeI : Py :=
  pyModule
    [assignI1,
     pyAssign [pyName "x" (ctxNode kStore) (L4 2 0 2 1)] listCompI
      (L4 2 0 2 23)]

/-- Scenario I with the tuple-target parentheses erased: parses with the
original dump. -/
def erasedI1 : String := "a, b  = f()\nx = [i for i in (c, d)]\n"

/-- CPython's tree for `erasedI1`. -/
def treeI1 : Py :=
  pyModule
    [pyAssign
      [pyTuple
        [pyName "a" (ctxNode kStore) (L4 1 0 1 1),
         pyName "b" (ctxNode kStore) (L4 1 3 1 4)]
        (ctxNode kStore) (L4 1 0 1 4)]
      (pyCall (pyName "f" (ctxNode kLoad) (L4 1 8 1 9)) (L4 1 8 1 11))
      (L4 1 0 1 11),
     pyAssign [pyName "x" (ctxNode kStore) (L4 2 0 2 1)] listCompI
      (L4 2 0 2 23)]

/-- Scenario I with the call parentheses erased: the value becomes the
bare `Name` `f`, so the dump differs. -/
def erasedI2 : String := "(a, b) = f  \nx = [i for i in (c, d)]\n"

/-- CPython's tree for `erasedI2`. -/
def treeI2 : Py :=
  pyModule
    [pyAssign [tupleI] (pyName "f" (ctxNode kLoad) (L4 1 9 1 10))
      (L4 1 0 1 10),
     pyAssign [pyName "x" (ctxNode kStore) (L4 2 0 2 1)] listCompI
      (L4 2 0 2 23)]

/-- Scenario I with the pair around `(c, d)` erased: rejected by
CPython. -/
def erasedI3 : String := "(a, b) = f()\nx = [i for i in  c, d ]\n"

/-- Scenario I with the square brackets erased: rejected by CPython. -/
def erasedI4 : String := "(a, b) = f()\nx =  i for i in (c, d) \n"

/-- Models CPython's `ast.parse` on the modified sources reachable in
scenario I; `erasedI3` and `erasedI4` raise `SyntaxError`. -/
def parseI (s : String) : Option Py :=
  if s == erasedI1 then some treeI1
  else if s == erasedI2 then some treeI2
  else none

theorem pySize_pos (n : Py) : 1 ≤ pySize n := by
  cases n <;> simp [pySize] <;> omega

theorem qSize_append (a b : List Py) : qSize (a ++ b) = qSize a + qSize b := by
  simp [qSize]

theorem qSize_tlist (p : Py) : qSize (tlist p) ≤ pySize p := by
  induction p with
  | tcons t ts iht ihts =>
    simp_all [tlist, qSize, pySize]
    omega
  | _ => simp_all [tlist, qSize, pySize]

theorem qSize_fieldNodes (p : Py) : qSize (fieldNodes p) ≤ pySize p := by
  induction p with
  | fone fname t rest iht ihr =>
    simp_all [fieldNodes, qSize, pySize]
    omega
  | fmany fname ts rest ihts ihr =>
    have := qSize_tlist ts
    simp_all [fieldNodes, qSize, pySize]
    omega
  | fatom fname s rest ihr =>
    simp_all [fieldNodes, qSize, pySize]
    omega
  | _ => simp_all [fieldNodes, qSize, pySize]

theorem qSize_children (n : Py) : qSize (children n) < pySize n := by
  cases n <;> simp [children, qSize, pySize]
  case node kind loc fs =>
    have := qSize_fieldNodes fs
    simp [qSize] at this ⊢
    omega

theorem walkAux_congr : ∀ (f g : Nat) (q : List Py), qSize q ≤ f →
    qSize q ≤ g → walkAux f q = walkAux g q := by
  intro f
  induction f with
  | zero =>
    intro g q hf _
    cases q with
    | nil => cases g <;> simp [walkAux]
    | cons n rest =>
      exfalso
      have := pySize_pos n
      simp [qSize] at hf
      omega
  | succ f ih =>
    intro g q hf hg
    cases q with
    | nil => cases g <;> simp [walkAux]
    | cons n rest =>
      cases g with
      | zero =>
        exfalso
        have := pySize_pos n
        simp [qSize] at hg
        omega
      | succ g =>
        simp only [walkAux]
        congr 1
        apply ih
        · have h1 := qSize_children n
          have h2 : qSize (n :: rest) = pySize n + qSize rest := by
            simp [qSize]
          rw [qSize_append]
          omega
        · have h1 := qSize_children n
          have h2 : qSize (n :: rest) = pySize n + qSize rest := by
            simp [qSize]
          rw [qSize_append]
          omega

theorem walkBFS_nil : walkBFS [] = [] := by
  simp [walkBFS, walkAux, qSize]

theorem walkBFS_cons (n : Py) (rest : List Py) :
    walkBFS (n :: rest) = n :: walkBFS (rest ++ children n) := by
  have hpos := pySize_pos n
  have hsz : qSize (n :: rest) = pySize n + qSize rest := by simp [qSize]
  unfold walkBFS
  have hstep : ∃ k, qSize (n :: rest) = k + 1 := by
    refine ⟨pySize n + qSize rest - 1, by omega⟩
  obtain ⟨k, hk⟩ := hstep
  rw [hk]
  simp only [walkAux]
  congr 1
  apply walkAux_congr
  · have h1 := qSize_children n
    rw [qSize_append]
    omega
  · exact le_refl _

theorem findAux_some_of_bal :
    ∀ (toks : List Tok) (lastLine : Int) (stack : List OpenEntry)
      (pairs : List ParenPair),
      balCheck toks (stack.map OpenEntry.sym) = true →
      (findAux toks lastLine stack pairs).isSome = true := by
  intro toks
  induction toks with
  | nil =>
    intro _ _ _ _
    simp [findAux]
  | cons t rest ih =>
    intro lastLine stack pairs hbal
    simp only [balCheck] at hbal
    simp only [findAux]
    by_cases h54 : (t.type == 54) = true
    · rw [if_pos h54] at hbal ⊢
      by_cases hop : (openSyms.contains t.string) = true
      · rw [if_pos hop] at hbal ⊢
        cases rest with
        | nil =>
          split
          · simp [findAux]
          · exfalso
            simp [balCheck] at hbal
        | cons t2 rest2 =>
          split
          · apply ih
            simpa using hbal
          · split
            · rename_i heq
              simp at heq
            · split
              · apply ih
                simpa using hbal
              · apply ih
                simpa using hbal
      · rw [if_neg hop] at hbal ⊢
        by_cases hcl : (closeSyms.contains t.string) = true
        · rw [if_pos hcl] at hbal ⊢
          cases stack with
          | nil => simp at hbal
          | cons o stack' =>
            simp only [List.map_cons, Bool.and_eq_true] at hbal
            simp only [hbal.1, if_true]
            exact ih _ _ _ hbal.2
        · rw [if_neg hcl] at hbal ⊢
          exact ih _ _ _ hbal
    · rw [if_neg h54] at hbal ⊢
      exact ih _ _ _ hbal

theorem findAux_pairs_src :
    ∀ (toks : List Tok) (lastLine : Int) (stack : List OpenEntry)
      (pairs res : List ParenPair),
      findAux toks lastLine stack pairs = some res →
      ∀ p ∈ res, pairFromToks toks stack pairs p := by
  intro toks
  induction toks with
  | nil =>
    intro _ _ pairs res hfind p hp
    simp only [findAux, Option.some.injEq] at hfind
    subst hfind
    exact Or.inl hp
  | cons t rest ih =>
    intro lastLine stack pairs res hfind p hp
    have lift_rest : pairFromToks rest stack pairs p →
        pairFromToks (t :: rest) stack pairs p := by
      intro h
      rcases h with h | ⟨hopen, tc, htc, hc1, hc2⟩
      · exact Or.inl h
      · refine Or.inr ⟨?_, tc, List.mem_cons_of_mem t htc, hc1, hc2⟩
        rcases hopen with h | ⟨tw, htw, h1, h2⟩
        · exact Or.inl h
        · exact Or.inr ⟨tw, List.mem_cons_of_mem t htw, h1, h2⟩
    simp only [findAux] at hfind
    by_cases h54 : (t.type == 54) = true
    · rw [if_pos h54] at hfind
      by_cases hop : (openSyms.contains t.string) = true
      · rw [if_pos hop] at hfind
        have htok : isOpenTok t = true := by
          unfold isOpenTok
          rw [h54, hop]
          rfl
        have lift_push : ∀ (spc : Int) (rp : String),
            pairFromToks rest (⟨t.start, spc, rp, t.string⟩ :: stack)
              pairs p →
            pairFromToks (t :: rest) stack pairs p := by
          intro spc rp h
          rcases h with h | ⟨hopen, tc, htc, hc1, hc2⟩
          · exact Or.inl h
          · refine Or.inr ⟨?_, tc, List.mem_cons_of_mem t htc, hc1, hc2⟩
            rcases hopen with ⟨e, he, hpos⟩ | ⟨tw, htw, h1, h2⟩
            · rcases List.mem_cons.1 he with he | he
              · subst he
                exact Or.inr ⟨t, List.mem_cons_self t rest, htok, hpos⟩
              · exact Or.inl ⟨e, he, hpos⟩
            · exact Or.inr ⟨tw, List.mem_cons_of_mem t htw, h1, h2⟩
        split at hfind
        · exact lift_push _ _ (ih _ _ _ _ hfind p hp)
        · cases rest with
          | nil => exact absurd hfind (by simp)
          | cons t2 rest2 =>
            have hfind2 : (if (t2.start.1 == t.endp.1) = true then
                findAux (t2 :: rest2) (t.endp.1 : Int)
                  (⟨t.start, (t2.start.2 : Int), emptyRepl, t.string⟩ ::
                    stack) pairs
              else
                findAux (t2 :: rest2) (t.endp.1 : Int)
                  (⟨t.start, (t.line.length : Int) - 2, emptyRepl,
                    t.string⟩ :: stack) pairs) = some res := hfind
            split at hfind2
            · exact lift_push _ _ (ih _ _ _ _ hfind2 p hp)
            · exact lift_push _ _ (ih _ _ _ _ hfind2 p hp)
      · rw [if_neg hop] at hfind
        by_cases hcl : (closeSyms.contains t.string) = true
        · rw [if_pos hcl] at hfind
          have hclose : isCloseTok t = true := by
            unfold isCloseTok
            rw [h54, hcl]
            rfl
          cases stack with
          | nil => exact absurd hfind (by simp)
          | cons o stack' =>
            have hfind2 : (if (openIdx o.sym == closeIdx t.string) = true
                then findAux rest (t.endp.1 : Int) stack'
                  (pairs ++ [⟨o.openPos, o.space, o.repl, t.start⟩])
              else none) = some res := hfind
            split at hfind2
            · have h := ih _ _ _ _ hfind2 p hp
              rcases h with h | ⟨hopen, tc, htc, hc1, hc2⟩
              · rcases List.mem_append.1 h with h | h
                · exact Or.inl h
                · have hpq : p = ⟨o.openPos, o.space, o.repl, t.start⟩ := by
                    simpa using h
                  subst hpq
                  exact Or.inr ⟨Or.inl ⟨o, List.mem_cons_self o stack',
                    rfl⟩, t, List.mem_cons_self t rest, hclose, rfl⟩
              · refine Or.inr ⟨?_, tc, List.mem_cons_of_mem t htc, hc1,
                  hc2⟩
                rcases hopen with ⟨e, he, hpos⟩ | ⟨tw, htw, h1, h2⟩
                · exact Or.inl ⟨e, List.mem_cons_of_mem o he, hpos⟩
                · exact Or.inr ⟨tw, List.mem_cons_of_mem t htw, h1, h2⟩
            · exact absurd hfind2 (by simp)
        · rw [if_neg hcl] at hfind
          exact lift_rest (ih _ _ _ _ hfind p hp)
    · rw [if_neg h54] at hfind
      exact lift_rest (ih _ _ _ _ hfind p hp)


theorem countPar002_append (a b : List Diag) :
    countPar002 (a ++ b) = countPar002 a + countPar002 b := by
  simp [countPar002, List.filter_append]

theorem countPar002_replicate (k : Nat) (n : Py) :
    countPar002 (List.replicate k (par002diag n)) = k := by
  induction k with
  | zero => simp [countPar002]
  | succ k ih =>
    simp only [List.replicate_succ]
    have : countPar002 (par002diag n :: List.replicate k (par002diag n)) =
        countPar002 (List.replicate k (par002diag n)) + 1 := by
      cases hs : startPosOf n <;> simp [countPar002, par002diag, hs]
    omega

theorem countPar002_par001map (l : List ParenPair) :
    countPar002 (l.map
      (fun v => ((v.openPos.1, v.openPos.2, par001msg) : Diag))) = 0 := by
  induction l with
  | nil => simp [countPar002]
  | cons v rest ih =>
    simp only [List.map_cons]
    have hne : (par001msg == par002msg) = false := by decide
    simp [countPar002] at ih ⊢
    constructor
    · intro h
      exact absurd h (by decide)
    · exact ih

theorem countPar002_flatten (walked : List Py) :
    countPar002 ((walked.map
      (fun n => List.replicate (qcount n) (par002diag n))).flatten) =
      (walked.map qcount).sum := by
  induction walked with
  | nil => simp [countPar002]
  | cons n ws ih =>
    simp only [List.map_cons, List.flatten_cons, List.sum_cons]
    rw [countPar002_append, countPar002_replicate, ih]


theorem par002diag_msg (n : Py) : (par002diag n).2.2 = par002msg := by
  cases h : startPosOf n <;> simp [par002diag, h]

theorem assignTargets_probs (node : Py) :
    ∀ (targs : List Py) (vals exc : List ParenPair) (probs : List Diag)
      (exc' : List ParenPair) (probs' : List Diag),
      assignTargets node targs vals exc probs = some (exc', probs') →
      probs' = probs ++ List.replicate (targs.countP qualifiesTarget)
        (par002diag node) := by
  intro targs
  induction targs with
  | nil =>
    intro vals exc probs exc' probs' h
    simp only [assignTargets, Option.some.injEq, Prod.mk.injEq] at h
    simp [← h.2]
  | cons t rest ih =>
    intro vals exc probs exc' probs' h
    simp only [assignTargets] at h
    by_cases h1 : isTuple t = true
    · rw [if_pos h1] at h
      cases helts : eltsOf t with
      | nil =>
        rw [helts] at h
        simp only [] at h
        have hq : qualifiesTarget t = false := by
          simp [qualifiesTarget, helts]
        rw [ih _ _ _ _ _ h]
        simp [List.countP_cons, hq]
      | cons e es =>
        rw [helts] at h
        simp only [] at h
        cases hts : startPosOf t with
        | none =>
          rw [hts] at h
          exact absurd h (by simp)
        | some tc =>
          rw [hts] at h
          simp only [] at h
          cases hes : startPosOf e with
          | none =>
            rw [hes] at h
            exact absurd h (by simp)
          | some ec =>
            rw [hes] at h
            simp only [] at h
            by_cases hlt : posLt tc ec = true
            · rw [if_pos hlt] at h
              cases hns : startPosOf node with
              | none =>
                rw [hns] at h
                exact absurd h (by simp)
              | some nc =>
                rw [hns] at h
                simp only [] at h
                have hq : qualifiesTarget t = true := by
                  simp [qualifiesTarget, h1, helts, hts, hes, hlt]
                have hd : par002diag node = (nc.1, nc.2, par002msg) := by
                  simp [par002diag, hns]
                rw [ih _ _ _ _ _ h]
                simp [List.countP_cons, hq, hd, List.replicate_succ]
            · rw [if_neg hlt] at h
              have hq : qualifiesTarget t = false := by
                simp [qualifiesTarget, helts, hts, hes, hlt]
              rw [ih _ _ _ _ _ h]
              simp [List.countP_cons, hq]
    · rw [if_neg h1] at h
      have hq : qualifiesTarget t = false := by
        simp [qualifiesTarget, h1]
      rw [ih _ _ _ _ _ h]
      simp [List.countP_cons, hq]

theorem assignTargets_node_pos (node : Py) :
    ∀ (targs : List Py) (vals exc : List ParenPair) (probs : List Diag)
      (res : List ParenPair × List Diag) (t : Py),
      assignTargets node targs vals exc probs = some res →
      t ∈ targs → qualifiesTarget t = true →
      ∃ nc, startPosOf node = some nc := by
  intro targs
  induction targs with
  | nil =>
    intro _ _ _ _ t _ ht _
    exact absurd ht (List.not_mem_nil t)
  | cons thead rest ih =>
    intro vals exc probs res t h ht hq
    simp only [assignTargets] at h
    rcases List.mem_cons.1 ht with rfl | ht
    · have h1 : isTuple t = true := by
        have h' := hq
        simp only [qualifiesTarget, Bool.and_eq_true] at h'
        exact h'.1
      rw [if_pos h1] at h
      cases helts : eltsOf t with
      | nil =>
        exfalso
        simp [qualifiesTarget, helts] at hq
      | cons e es =>
        rw [helts] at h
        simp only [] at h
        cases hts : startPosOf t with
        | none =>
          exfalso
          simp [qualifiesTarget, helts, hts] at hq
        | some tc =>
          rw [hts] at h
          simp only [] at h
          cases hes : startPosOf e with
          | none =>
            exfalso
            simp [qualifiesTarget, helts, hts, hes] at hq
          | some ec =>
            rw [hes] at h
            simp only [] at h
            have hlt : posLt tc ec = true := by
              simp [qualifiesTarget, helts, hts, hes] at hq
              exact hq.2
            rw [if_pos hlt] at h
            cases hns : startPosOf node with
            | none =>
              rw [hns] at h
              exact absurd h (by simp)
            | some nc => exact ⟨nc, rfl⟩
    · by_cases h1 : isTuple thead = true
      · rw [if_pos h1] at h
        cases helts : eltsOf thead with
        | nil =>
          rw [helts] at h
          simp only [] at h
          exact ih _ _ _ _ t h ht hq
        | cons e es =>
          rw [helts] at h
          simp only [] at h
          cases hts : startPosOf thead with
          | none =>
            rw [hts] at h
            exact absurd h (by simp)
          | some tc =>
            rw [hts] at h
            simp only [] at h
            cases hes : startPosOf e with
            | none =>
              rw [hes] at h
              exact absurd h (by simp)
            | some ec =>
              rw [hes] at h
              simp only [] at h
              by_cases hlt : posLt tc ec = true
              · rw [if_pos hlt] at h
                cases hns : startPosOf node with
                | none =>
                  rw [hns] at h
                  exact absurd h (by simp)
                | some nc => exact ⟨nc, rfl⟩
              · rw [if_neg hlt] at h
                exact ih _ _ _ _ t h ht hq
      · rw [if_neg h1] at h
        exact ih _ _ _ _ t h ht hq

theorem processNode_probs (vals : List ParenPair)
    (acc : List ParenPair × List Diag) (n : Py)
    (st' : List ParenPair × List Diag)
    (h : processNode vals acc n = some st') :
    st'.2 = acc.2 ++ List.replicate (qcount n) (par002diag n) := by
  unfold processNode at h
  cases hbin : (if isBinExc n then binChildren n (children n) vals acc.1
      else some acc.1) with
  | none =>
    rw [hbin] at h
    exact absurd h (by simp)
  | some exc1 =>
    rw [hbin] at h
    simp only [] at h
    cases hasg : (if isAssign n then
        assignTargets n (targetsOf n) vals exc1 acc.2
      else some (exc1, acc.2)) with
    | none =>
      rw [hasg] at h
      exact absurd h (by simp)
    | some ep =>
      rw [hasg] at h
      simp only [] at h
      cases htail : tailScan n (children n) vals ep.1 with
      | none =>
        rw [htail] at h
        exact absurd h (by simp)
      | some exc3 =>
        rw [htail] at h
        simp only [Option.some.injEq] at h
        subst h
        by_cases ha : isAssign n = true
        · rw [if_pos ha] at hasg
          unfold qcount
          rw [if_pos ha]
          cases ep with
          | mk e2 p2 =>
            exact assignTargets_probs n (targetsOf n) vals exc1 acc.2 e2 p2
              hasg
        · rw [if_neg ha] at hasg
          simp only [Option.some.injEq] at hasg
          unfold qcount
          rw [if_neg ha]
          simp [← hasg]

theorem processNode_assign_pos (vals : List ParenPair)
    (acc : List ParenPair × List Diag) (n : Py)
    (res : List ParenPair × List Diag) (t : Py)
    (h : processNode vals acc n = some res) (ha : isAssign n = true)
    (ht : t ∈ targetsOf n) (hq : qualifiesTarget t = true) :
    ∃ nc, startPosOf n = some nc := by
  unfold processNode at h
  cases hbin : (if isBinExc n then binChildren n (children n) vals acc.1
      else some acc.1) with
  | none =>
    rw [hbin] at h
    exact absurd h (by simp)
  | some exc1 =>
    rw [hbin] at h
    simp only [] at h
    rw [if_pos ha] at h
    cases hasg : assignTargets n (targetsOf n) vals exc1 acc.2 with
    | none =>
      rw [hasg] at h
      exact absurd h (by simp)
    | some ep =>
      exact assignTargets_node_pos n (targetsOf n) vals exc1 acc.2 ep t
        hasg ht hq

theorem checkerFold_probs (vals : List ParenPair) :
    ∀ (walked : List Py) (st st' : List ParenPair × List Diag),
      checkerFold vals walked st = some st' →
      st'.2 = st.2 ++ ((walked.map
        (fun n => List.replicate (qcount n) (par002diag n))).flatten) := by
  intro walked
  induction walked with
  | nil =>
    intro st st' h
    simp only [checkerFold, Option.some.injEq] at h
    subst h
    simp
  | cons n ws ih =>
    intro st st' h
    simp only [checkerFold] at h
    cases hp : processNode vals st n with
    | none =>
      rw [hp] at h
      exact absurd h (by simp)
    | some st1 =>
      rw [hp] at h
      simp only [] at h
      rw [ih st1 st' h, processNode_probs vals st n st1 hp]
      simp

theorem checkerFold_mem_process (vals : List ParenPair) :
    ∀ (walked : List Py) (st st' : List ParenPair × List Diag) (n : Py),
      checkerFold vals walked st = some st' → n ∈ walked →
      ∃ acc res, processNode vals acc n = some res := by
  intro walked
  induction walked with
  | nil =>
    intro _ _ n _ hn
    exact absurd hn (List.not_mem_nil n)
  | cons m ws ih =>
    intro st st' n h hn
    simp only [checkerFold] at h
    cases hp : processNode vals st m with
    | none =>
      rw [hp] at h
      exact absurd h (by simp)
    | some st1 =>
      rw [hp] at h
      simp only [] at h
      rcases List.mem_cons.1 hn with rfl | hn
      · exact ⟨st, st1, hp⟩
      · exact ih st1 st' n h hn

theorem checkerCheck_spec (vals : List ParenPair) (tree : Py)
    (out : List Diag) (h : checkerCheck vals tree = some out) :
    ∃ st, checkerState vals tree = some st ∧
      st.2 = ((walkBFS [tree]).map
        (fun n => List.replicate (qcount n) (par002diag n))).flatten ∧
      out = st.2 ++ (vals.filter (fun v => !(st.1.contains v))).map
        (fun v => (v.openPos.1, v.openPos.2, par001msg)) := by
  unfold checkerCheck at h
  cases hs : checkerState vals tree with
  | none =>
    rw [hs] at h
    exact absurd h (by simp)
  | some st =>
    rw [hs] at h
    simp only [Option.some.injEq] at h
    have hs' : checkerFold vals (walkBFS [tree]) ([], []) = some st := hs
    have h2 := checkerFold_probs vals (walkBFS [tree]) ([], []) st hs'
    simp only [List.nil_append] at h2
    exact ⟨st, rfl, h2, h.symm⟩

theorem checkerCheck_mem_par002 (vals : List ParenPair) (tree : Py)
    (out : List Diag) (n t : Py)
    (hout : checkerCheck vals tree = some out)
    (hw : n ∈ walkBFS [tree]) (ha : isAssign n = true)
    (ht : t ∈ targetsOf n) (hq : qualifiesTarget t = true) :
    ∃ nc, startPosOf n = some nc ∧
      ((nc.1, nc.2, par002msg) : Diag) ∈ out := by
  rcases checkerCheck_spec vals tree out hout with ⟨st, hs, hflat, hout'⟩
  have hs' : checkerFold vals (walkBFS [tree]) ([], []) = some st := hs
  rcases checkerFold_mem_process vals (walkBFS [tree]) ([], []) st n hs' hw
    with ⟨acc, res, hp⟩
  rcases processNode_assign_pos vals acc n res t hp ha ht hq with ⟨nc, hnc⟩
  refine ⟨nc, hnc, ?_⟩
  have hd : par002diag n = (nc.1, nc.2, par002msg) := by
    simp [par002diag, hnc]
  rw [hout']
  apply List.mem_append_left
  rw [hflat, List.mem_flatten]
  refine ⟨List.replicate (qcount n) (par002diag n),
    List.mem_map_of_mem _ hw, ?_⟩
  rw [← hd, List.mem_replicate]
  refine ⟨?_, rfl⟩
  unfold qcount
  rw [if_pos ha]
  have hpos : 0 < (targetsOf n).countP qualifiesTarget :=
    List.countP_pos_iff.2 ⟨t, ht, hq⟩
  omega

theorem checkerCheck_msgs (vals : List ParenPair) (tree : Py)
    (out : List Diag) (h : checkerCheck vals tree = some out) :
    ∀ d ∈ out, d.2.2 = par001msg ∨ d.2.2 = par002msg := by
  intro d hd
  rcases checkerCheck_spec vals tree out h with ⟨st, _, hflat, hout⟩
  rw [hout] at hd
  rcases List.mem_append.1 hd with hd | hd
  · rw [hflat] at hd
    rcases List.mem_flatten.1 hd with ⟨l, hl, hdl⟩
    rcases List.mem_map.1 hl with ⟨m, _, rfl⟩
    have heq := List.eq_of_mem_replicate hdl
    subst heq
    exact Or.inr (par002diag_msg m)
  · rcases List.mem_map.1 hd with ⟨v, _, rfl⟩
    exact Or.inl rfl

/-- C1: the Equivalence Tester (`check_trees`) decides redundancy exactly
as: parse failure on the pair-erased source means not redundant; parse
success means redundant iff the re-parsed tree's canonical dump equals the
original tree's dump.  Consequently every `PAR001` (`RedundantGrouping`)
diagnostic the engine emits is located at the opening coordinates of a
matched pair whose erasure re-parses to a tree with the original dump. -/
theorem c1_check_trees_decides_redundancy :
    (∀ (parse : String → Option Py) (dump : Py → String)
       (src startTree : String) (c : ParenPair),
       checkTrees parse dump src startTree c = true ↔
         ∃ t, parse (eraseParens src c) = some t ∧ dump t = startTree) ∧
    (∀ (parse : String → Option Py) (toks : List Tok) (src : String)
       (tree : Py) (out : List Diag) (l c : Nat),
       runPlugin parse toks src tree = some out →
       ((l, c, par001msg) : Diag) ∈ out →
       ∃ pairs p, findParensCoords toks = some pairs ∧ p ∈ pairs ∧
         p.openPos = (l, c) ∧
         ∃ t, parse (eraseParens src p) = some t ∧
           dumpAny t = dumpAny tree) := by
  constructor
  · intro parse dump src startTree c
    unfold checkTrees
    cases hp : parse (eraseParens src c) with
    | none => simp
    | some t => simp [beq_iff_eq]
  · intro parse toks src tree out l c h hd
    unfold runPlugin at h
    cases hpv : pluginVals parse dumpAny toks src tree with
    | none =>
      rw [hpv] at h
      exact absurd h (by simp)
    | some vals =>
      rw [hpv] at h
      simp only [] at h
      by_cases he : vals.isEmpty = true
      · rw [if_pos he] at h
        injection h with h
        subst h
        exact absurd hd (List.not_mem_nil _)
      · rw [if_neg he] at h
        by_cases hm : isModule tree = true
        · rw [if_pos hm] at h
          rcases checkerCheck_spec vals tree out h with ⟨st, _, hflat, hout⟩
          subst hout
          rcases List.mem_append.1 hd with hd | hd
          · exfalso
            rw [hflat] at hd
            rcases List.mem_flatten.1 hd with ⟨lst, hl, hdl⟩
            rcases List.mem_map.1 hl with ⟨n, _, rfl⟩
            have heq := List.eq_of_mem_replicate hdl
            have hmsg : par001msg = (par002diag n).2.2 :=
              congrArg (fun d : Diag => d.2.2) heq
            rw [par002diag_msg] at hmsg
            exact absurd hmsg (by decide)
          · rcases List.mem_map.1 hd with ⟨v, hvf, heq⟩
            have hv : v ∈ vals := (List.mem_filter.1 hvf).1
            have hopen : v.openPos = (l, c) := by
              have h1 := congrArg (fun d : Diag => d.1) heq
              have h2 := congrArg (fun d : Diag => d.2.1) heq
              simp at h1 h2
              cases hvo : v.openPos
              simp [hvo] at h1 h2
              simp [h1, h2]
            rcases Option.map_eq_some'.1 hpv with ⟨pairs, hfp, hfilter⟩
            have hvmem : v ∈ pairs ∧
                checkTrees parse dumpAny src (dumpAny tree) v = true := by
              have := hfilter ▸ hv
              exact ⟨(List.mem_filter.1 this).1,
                (List.mem_filter.1 this).2⟩
            refine ⟨pairs, v, hfp, hvmem.1, hopen, ?_⟩
            have hct := hvmem.2
            unfold checkTrees at hct
            cases hp : parse (eraseParens src v) with
            | none =>
              rw [hp] at hct
              exact absurd hct (by simp)
            | some t =>
              rw [hp] at hct
              exact ⟨t, rfl, by simpa [beq_iff_eq] using hct⟩
        · rw [if_neg hm] at h
          exact absurd h (by simp)

set_option maxRecDepth 100000 in
/-- Witness for C1, on scenario D: the engine reports `PAR001` at `(2, 4)`,
and indeed that is a matched pair whose erasure re-parses to a tree with
the original dump. -/
theorem c1_check_trees_decides_redundancy_witness :
    (checkTrees parseD dumpAny srcD (dumpAny treeD) pairD1 = true ↔
      ∃ t, parseD (eraseParens srcD pairD1) = some t ∧
        dumpAny t = dumpAny treeD) ∧
    ∃ pairs p, findParensCoords toksD = some pairs ∧ p ∈ pairs ∧
      p.openPos = ((2 : Nat), (4 : Nat)) ∧
      ∃ t, parseD (eraseParens srcD p) = some t ∧
        dumpAny t = dumpAny treeD :=
  ⟨c1_check_trees_decides_redundancy.1 parseD dumpAny srcD (dumpAny treeD)
      pairD1,
   c1_check_trees_decides_redundancy.2 parseD toksD srcD treeD
      [(2, 4, par001msg)] 2 4 (by decide) (by decide)⟩

set_option maxRecDepth 100000 in
/-- Counterexample to C2: for the two-line program `(a,⏎ b) = f()` the
assignment's target is a parenthesized tuple of names, yet the engine
emits no diagnostic at all — erasing the tuple parentheses does not parse
and erasing the call parentheses changes the dump, so no pair is confirmed
redundant and `Plugin.run` returns before the Checker ever runs. -/
theorem c2_unpacking_not_always_flagged :
    runPlugin parseB toksB srcB treeB = some [] ∧
    assignB ∈ walkBFS [treeB] ∧ isAssign assignB = true ∧
    tupleB ∈ targetsOf assignB ∧ qualifiesTarget tupleB = true ∧
    startPosOf assignB = some ((1 : Nat), (0 : Nat)) :=
  ⟨by decide, by decide, by decide, by decide, by decide, by decide⟩

/-- C2 as amended: a `ParenthesizedUnpacking` (`PAR002`) diagnostic is
emitted at the assignment's coordinates for every parenthesized
tuple-of-names target, PROVIDED at least one bracket pair of the file was
confirmed structurally redundant AND `Checker.check` runs to completion
(with no confirmed pair `Plugin.run` returns without yielding anything,
and a walked node without position attributes aborts the whole check with
an `AttributeError` before anything is emitted). -/
theorem c2_unpacking_flag_amended (parse : String → Option Py)
    (toks : List Tok) (src : String) (tree : Py) (vals : List ParenPair)
    (out : List Diag) (n t : Py)
    (hv : pluginVals parse dumpAny toks src tree = some vals)
    (hne : vals ≠ []) (hm : isModule tree = true)
    (hout : runPlugin parse toks src tree = some out)
    (hw : n ∈ walkBFS [tree]) (ha : isAssign n = true)
    (ht : t ∈ targetsOf n) (hq : qualifiesTarget t = true) :
    ∃ nc, startPosOf n = some nc ∧
      ((nc.1, nc.2, par002msg) : Diag) ∈ out := by
  have h1 : vals.isEmpty = false := by
    cases vals with
    | nil => exact absurd rfl hne
    | cons a l => rfl
  have hcc : checkerCheck vals tree = some out := by
    unfold runPlugin at hout
    rw [hv] at hout
    simp only [] at hout
    simp only [h1, Bool.false_eq_true, if_false, if_pos hm] at hout
    exact hout
  exact checkerCheck_mem_par002 vals tree out n t hcc hw ha ht hq

set_option maxRecDepth 100000 in
/-- Witness for the amended C2, on scenario A: `(a, b) = f()` has a
confirmed-redundant pair, the Checker completes, and the `PAR002`
diagnostic is emitted at the assignment's coordinates `(1, 0)`. -/
theorem c2_unpacking_flag_amended_witness :
    ∃ nc, startPosOf assignA = some nc ∧
      ((nc.1, nc.2, par002msg) : Diag) ∈
        [((1 : Nat), (0 : Nat), par002msg)] :=
  c2_unpacking_flag_amended parseA toksA srcA treeA [pairA1]
    [((1 : Nat), (0 : Nat), par002msg)] assignA tupleA
    (by decide) (by decide) (by decide) (by decide) (by decide) (by decide)
    (by decide) (by decide)

set_option maxRecDepth 100000 in
/-- Counterexample to C3: on `(a, b) = f()` the engine emits a diagnostic
whose message is the source's `PAR002` string, which is spelt `Dont` —
character for character it equals neither of the two kind strings given in
the specification (`"PAR001: Too many parentheses"` and `"PAR002: Don't
use parentheses for unpacking"`). -/
theorem c3_kind_string_mismatch :
    runPlugin parseA toksA srcA treeA = some [(1, 0, par002msg)] ∧
    par002msg ≠ par001msg ∧ par002msg ≠ specPar002 :=
  ⟨by decide, by decide, by decide⟩

/-- C3 as amended: every diagnostic the engine emits carries exactly one of
the two kind strings `"PAR001: Too many parentheses"` and `"PAR002: Dont
use parentheses for unpacking"` — the source spells the second without the
apostrophe the specification shows. -/
theorem c3_kind_strings_amended (parse : String → Option Py)
    (toks : List Tok) (src : String) (tree : Py) (out : List Diag)
    (h : runPlugin parse toks src tree = some out) (d : Diag)
    (hd : d ∈ out) : d.2.2 = par001msg ∨ d.2.2 = par002msg := by
  unfold runPlugin at h
  cases hpv : pluginVals parse dumpAny toks src tree with
  | none =>
    rw [hpv] at h
    exact absurd h (by simp)
  | some vals =>
    rw [hpv] at h
    simp only [] at h
    by_cases he : vals.isEmpty = true
    · rw [if_pos he] at h
      injection h with h
      subst h
      exact absurd hd (List.not_mem_nil _)
    · rw [if_neg he] at h
      by_cases hm : isModule tree = true
      · rw [if_pos hm] at h
        exact checkerCheck_msgs vals tree out h d hd
      · rw [if_neg hm] at h
        exact absurd h (by simp)

set_option maxRecDepth 100000 in
/-- Witness for the amended C3, on scenario E: the emitted diagnostic's
message is one of the two source kind strings. -/
theorem c3_kind_strings_amended_witness :
    (((1 : Nat), (0 : Nat), par001msg) : Diag).2.2 = par001msg ∨
    (((1 : Nat), (0 : Nat), par001msg) : Diag).2.2 = par002msg :=
  c3_kind_strings_amended parseE toksE srcE treeE [(1, 0, par001msg)]
    (by decide) (1, 0, par001msg) (by decide)

set_option maxRecDepth 100000 in
/-- C4, behaviour of the code at the failing input `x = (1)` /
`y = (a, b)`: the trailing tuple `(a, b)` of the second assignment ends at
its parent's `end_col_offset`, so the tail-tuple branch fires — but it adds
the FIRST not-yet-excepted confirmed pair (`(1)`'s pair, at `(1, 4)`) to
the exception list instead of the pair that encloses the trailing tuple,
and the engine then reports `PAR001` exactly at `(2, 4)`, the opening of
the pair wrapping the trailing tuple, contradicting the claim. -/
theorem c4_tail_tuple_excepts_wrong_pair :
    pluginVals parseD dumpAny toksD srcD treeD = some valsD ∧
    checkerState valsD treeD = some ([pairD1], []) ∧
    runPlugin parseD toksD srcD treeD = some [(2, 4, par001msg)] ∧
    startPosOf tupleD = some ((2 : Nat), (4 : Nat)) ∧
    pairD2.openPos = ((2 : Nat), (4 : Nat)) ∧
    pairD1.openPos = ((1 : Nat), (4 : Nat)) :=
  ⟨by decide, by decide, by decide, by decide, by decide, by decide⟩

set_option maxRecDepth 100000 in
/-- C5: for `((a + b) + c)` both pairs are confirmed structurally
redundant; the inner pair (which bounds the inner `BinOp`, a
binary-operator child of the outer `BinOp`) is placed in the exception
list and not reported, while the outer pair is reported as `PAR001`
(`RedundantGrouping`) at its own opening coordinates `(1, 0)`. -/
theorem c5_operator_exception_symmetry :
    pluginVals parseE dumpAny toksE srcE treeE = some valsE ∧
    checkerState valsE treeE = some ([pairEin], []) ∧
    runPlugin parseE toksE srcE treeE = some [(1, 0, par001msg)] ∧
    nodeInParens binInnerE pairEin = some true ∧
    isBinExc binOuterE = true ∧ isBinExc binInnerE = true ∧
    binInnerE ∈ children binOuterE :=
  ⟨by decide, by decide, by decide, by decide, by decide, by decide,
   by decide⟩

set_option maxRecDepth 100000 in
/-- C6, behaviour of the code at the failing input `y = (1)` /
`x = [i for i in (a, b)]`: the first half of the claim does hold here — the
two pair-erasures that fail to re-parse are each caught inside
`check_trees` and decide "not redundant" for their own pair only, leaving
the confirmed set `[pairH1]` — but the second half fails: the walk then
reaches the `ast.comprehension` node, which carries no position
attributes, its child `(a, b)` is a `Tuple`, and the tail-tuple branch of
`Checker.check` reads `end_col_offset` of the comprehension itself, so the
engine raises `AttributeError` (`none`) on this syntactically valid,
bracket-balanced module and yields nothing. -/
theorem c6_catch_contained_yet_engine_raises :
    checkTrees parseH dumpAny srcH (dumpAny treeH) pairH2 = false ∧
    checkTrees parseH dumpAny srcH (dumpAny treeH) pairH3 = false ∧
    pluginVals parseH dumpAny toksH srcH treeH = some [pairH1] ∧
    balCheck toksH [] = true ∧ isModule treeH = true ∧
    compH ∈ walkBFS [treeH] ∧ isTuple tupleHab = true ∧
    tupleHab ∈ children compH ∧ locOf compH = none ∧
    runPlugin parseH toksH srcH treeH = none :=
  ⟨by decide, by decide, by decide, by decide, by decide, by decide,
   by decide, by decide, by decide, by decide⟩
theorem c8_balanced_stream_never_fails (toks : List Tok)
    (h : balCheck toks [] = true) :
    ∃ pairs, findParensCoords toks = some pairs := by
  have := findAux_some_of_bal toks (-1) [] [] (by simpa using h)
  exact Option.isSome_iff_exists.1 this

set_option maxRecDepth 100000 in
/-- Witness for C8: the token stream of scenario A is balanced and the
Bracket Matcher succeeds on it. -/
theorem c8_balanced_stream_never_fails_witness :
    ∃ pairs, findParensCoords toksA = some pairs :=
  c8_balanced_stream_never_fails toksA (by decide)

/-- C9 (implicit): every pair `find_parens_coords` produces takes its
opening coordinates from a token of kind 54 (`OP`) whose text is an
opening bracket, and its closing coordinates from a kind-54 token whose
text is a closing bracket; bracket characters in the text of tokens of any
other kind (string literals, comments) never yield a pair. -/
theorem c9_pairs_only_from_op_tokens (toks : List Tok)
    (res : List ParenPair) (h : findParensCoords toks = some res) :
    ∀ p ∈ res,
      (∃ t ∈ toks, isOpenTok t = true ∧ t.start = p.openPos) ∧
      (∃ t ∈ toks, isCloseTok t = true ∧ t.start = p.closePos) := by
  intro p hp
  have hmain := findAux_pairs_src toks (-1) [] [] res h p hp
  rcases hmain with h' | ⟨hopen, hclose⟩
  · exact absurd h' (List.not_mem_nil p)
  · refine ⟨?_, hclose⟩
    rcases hopen with ⟨e, he, _⟩ | h'
    · exact absurd he (List.not_mem_nil e)
    · exact h'

set_option maxRecDepth 100000 in
/-- Witness for C9, on scenario S: the single produced pair comes from the
kind-54 `[` and `]` tokens; the `(` inside the string literal token yields
nothing. -/
theorem c9_pairs_only_from_op_tokens_witness :
    (∃ t ∈ toksS, isOpenTok t = true ∧ t.start = pairS.openPos) ∧
    (∃ t ∈ toksS, isCloseTok t = true ∧ t.start = pairS.closePos) :=
  c9_pairs_only_from_op_tokens toksS [pairS] (by decide) pairS (by decide)

set_option maxRecDepth 100000 in
/-- Counterexample to C10: scenario I (`(a, b) = f()` / `x = [i for i in
(c, d)]`) has exactly one parenthesized tuple-of-names target
(`totalQual treeI = 1`) on a walked assignment, and a confirmed-redundant
pair, yet the engine emits zero `PAR002` diagnostics: the walk crashes
with `AttributeError` at the `ast.comprehension` node before
`Checker.check` returns, so nothing at all is yielded. -/
theorem c10_crash_no_par002 :
    totalQual treeI = 1 ∧ qualifiesTarget tupleI = true ∧
    tupleI ∈ targetsOf assignI1 ∧ isAssign assignI1 = true ∧
    assignI1 ∈ walkBFS [treeI] ∧
    pluginVals parseI dumpAny toksI srcI treeI = some [pairI1] ∧
    runPlugin parseI toksI srcI treeI = none :=
  ⟨by decide, by decide, by decide, by decide, by decide, by decide,
   by decide⟩

/-- C10 as amended: whenever `Checker.check` runs to completion (no
`AttributeError` aborts the walk), the element loop of the unpacking
branch exits after the first element, so the Checker emits exactly one
`PAR002` diagnostic per parenthesized tuple target — the diagnostic count
equals the number of qualifying tuple targets over the walk, independent
of how many names each tuple unpacks. -/
theorem c10_one_par002_per_target_amended (vals : List ParenPair)
    (tree : Py) (out : List Diag)
    (h : checkerCheck vals tree = some out) :
    countPar002 out = totalQual tree := by
  rcases checkerCheck_spec vals tree out h with ⟨st, _, hflat, hout⟩
  rw [hout, countPar002_append, hflat, countPar002_flatten,
    countPar002_par001map]
  unfold totalQual
  omega

set_option maxRecDepth 100000 in
/-- Witness for the amended C10, on scenario A: the Checker completes and
emits exactly one `PAR002`, matching the one parenthesized tuple target. -/
theorem c10_one_par002_per_target_amended_witness :
    countPar002 [((1 : Nat), (0 : Nat), par002msg)] = totalQual treeA :=
  c10_one_par002_per_target_amended [pairA1] treeA
    [((1 : Nat), (0 : Nat), par002msg)] (by decide)
theorem listGetD_set_ne : ∀ (l : List String) (i j : Nat) (x : String),
    i ≠ j → (l.set j x).getD i "" = l.getD i "" := by
  intro l
  induction l with
  | nil =>
    intro i j x _
    simp
  | cons a as ih =>
    intro i j x h
    cases j with
    | zero =>
      cases i with
      | zero => exact absurd rfl h
      | succ i => simp [List.set]
    | succ j =>
      cases i with
      | zero => simp [List.set]
      | succ i =>
        simp only [List.set, List.getD_cons_succ]
        exact ih i j x (by omega)

theorem listGetD_set_self : ∀ (l : List String) (i : Nat) (x : String),
    i < l.length → (l.set i x).getD i "" = x := by
  intro l
  induction l with
  | nil =>
    intro i x h
    simp at h
  | cons a as ih =>
    intro i x h
    cases i with
    | zero => simp [List.set]
    | succ i =>
      simp only [List.set, List.getD_cons_succ]
      exact ih i x (by simpa using h)

theorem pyGet_pySet_ne (l : List String) (i j : Int) (x : String)
    (hi : 0 ≤ i) (hj : 0 ≤ j) (hij : i ≠ j) :
    pyGet (pySet l j x) i = pyGet l i := by
  unfold pyGet pySet
  have h1 : ¬(i < 0) := by omega
  have h2 : ¬(j < 0) := by omega
  simp only [h1, h2, if_false, if_neg]
  rw [listGetD_set_ne]
  omega

theorem pyGet_pySet_self (l : List String) (i : Int) (x : String)
    (hi : 0 ≤ i) (hlen : i.toNat < l.length) :
    pyGet (pySet l i x) i = x := by
  unfold pyGet pySet
  have h1 : ¬(i < 0) := by omega
  simp only [h1, if_false, if_neg]
  exact listGetD_set_self l i.toNat x hlen

theorem pyTake_append_pyDrop (s : String) (k : Int) (hk : 0 ≤ k) :
    pyTake s k ++ pyDrop s k = s := by
  unfold pyTake pyDrop
  have h1 : ¬(k < 0) := by omega
  simp only [h1, if_false, if_neg]
  cases s with
  | mk data =>
    show String.mk (data.take k.toNat ++ data.drop k.toNat) = String.mk data
    rw [List.take_append_drop]

set_option maxRecDepth 100000 in
/-- Counterexample to C7: in scenario G the opening parenthesis is the
only token on its line, the recorded erasure column is
`len("(\n") - 2 = 0`, and erasing the pair leaves line 1 equal to `"("` —
the opening token and the rest of its line are NOT removed, contradicting
"the erasure span extends to end-of-line". -/
theorem c7_lone_opener_counterexample :
    findParensCoords toksG = some [pairG] ∧
    pairG.space = 0 ∧
    pyGet (pySplitLines srcG) 0 = glParen ∧
    pyGet (pySplitLines (eraseParens srcG pairG)) 0 = glParen ∧
    glParen ≠ "" :=
  ⟨by decide, by decide, by decide, by decide, by decide⟩

/-- C7 as amended: for an opening grouping token that is first on its line
with the following token on a later line, the Bracket Matcher records the
erasure span end `len(token.line) - 2` — one short of end-of-line, since
`token.line` includes the trailing newline — so the Equivalence Tester's
erasure keeps the final character of the physical line; in particular when
the opening token is the line's last character, the opening line is left
unchanged. -/
theorem c7_lone_opener_amended :
    (∀ (t t2 : Tok) (rest : List Tok) (lastLine : Int)
       (stack : List OpenEntry) (pairs : List ParenPair),
       t.type = 54 → openSyms.contains t.string = true →
       lastLine ≠ (t.start.1 : Int) → t2.start.1 ≠ t.endp.1 →
       findAux (t :: t2 :: rest) lastLine stack pairs =
         findAux (t2 :: rest) (t.endp.1 : Int)
           (⟨t.start, (t.line.length : Int) - 2, emptyRepl, t.string⟩ ::
             stack) pairs) ∧
    (∀ (lines : List String) (c : ParenPair) (ol : String),
       1 ≤ c.openPos.1 → 1 ≤ c.closePos.1 →
       c.openPos.1 ≠ c.closePos.1 →
       pyGet lines ((c.openPos.1 : Int) - 1) = ol →
       ((c.openPos.1 : Int) - 1).toNat < lines.length →
       c.space = (ol.length : Int) - 1 → c.repl = emptyRepl →
       pyGet (eraseLines lines c) ((c.openPos.1 : Int) - 1) =
         pyTake ol (c.openPos.2 : Int) ++
           pyDrop ol ((ol.length : Int) - 1) ∧
       ((c.openPos.2 : Int) = (ol.length : Int) - 1 →
         pyGet (eraseLines lines c) ((c.openPos.1 : Int) - 1) = ol)) := by
  constructor
  · intro t t2 rest lastLine stack pairs h54 hop hfl hne
    have hb54 : (t.type == 54) = true := by simp [h54]
    have hb2 : (t2.start.1 == t.endp.1) = false := by simp [hne]
    have hfldec : decide (lastLine ≠ (t.start.1 : Int)) = true := by
      simp [hfl]
    cases stack with
    | nil =>
      rw [findAux.eq_4]
      simp only [hb54, hop, hfldec, Bool.not_true, Bool.false_eq_true,
        if_false, hb2, if_true]
    | cons o stack' =>
      rw [findAux.eq_5]
      simp only [hb54, hop, hfldec, Bool.not_true, Bool.false_eq_true,
        if_false, hb2, if_true]
  · intro lines c ol h1 h2 h3 h4 h5 h6 h7
    have hoi : (0 : Int) ≤ (c.openPos.1 : Int) - 1 := by omega
    have hci : (0 : Int) ≤ (c.closePos.1 : Int) - 1 := by omega
    have hne : (c.openPos.1 : Int) - 1 ≠ (c.closePos.1 : Int) - 1 := by
      omega
    have main : pyGet (eraseLines lines c) ((c.openPos.1 : Int) - 1) =
        pyTake ol (c.openPos.2 : Int) ++
          pyDrop ol ((ol.length : Int) - 1) := by
      unfold eraseLines
      simp only [h4, h7]
      rw [pyGet_pySet_ne _ _ _ _ hoi hci hne]
      rw [pyGet_pySet_self _ _ _ hoi h5]
      rw [h6]
      simp [emptyRepl]
    refine ⟨main, ?_⟩
    intro hcol
    rw [main, hcol, pyTake_append_pyDrop]
    omega

set_option maxRecDepth 100000 in
/-- Witness for the amended C7, on scenario G: the branch records
`len("(\n") - 2 = 0`, and since the opening token is the line's last
character the erased opening line equals the original line. -/
theorem c7_lone_opener_amended_witness :
    (findAux (tokG1 :: tokG2 :: [tokG3]) (-1) [] [] =
      findAux (tokG2 :: [tokG3]) (tokG1.endp.1 : Int)
        (⟨tokG1.start, (tokG1.line.length : Int) - 2, emptyRepl,
          tokG1.string⟩ :: []) []) ∧
    (pyGet (eraseLines linesG pairG) ((pairG.openPos.1 : Int) - 1) =
      pyTake glParen (pairG.openPos.2 : Int) ++
        pyDrop glParen ((glParen.length : Int) - 1) ∧
     ((pairG.openPos.2 : Int) = (glParen.length : Int) - 1 →
       pyGet (eraseLines linesG pairG) ((pairG.openPos.1 : Int) - 1) =
         glParen)) :=
  ⟨c7_lone_opener_amended.1 tokG1 tokG2 [tokG3] (-1) [] [] (by decide)
      (by decide) (by decide) (by decide),
   c7_lone_opener_amended.2 linesG pairG glParen (by decide) (by decide)
      (by decide) (by decide) (by decide) (by decide) rfl⟩
